import Mathlib

/-!
# softscan: admission and image-normalisation pipeline

A shallow embedding of the Go backend (`backend/internal/...`) of the softscan
OCR proxy, and theorems about it.

* Go `error` values are the type `GoError`; a `nil` error is `none`.
* Go multi-value returns are structures whose fields are the returned values;
  a `nil` slice or pointer is `none`.
* Library code (base64, `image.Decode`, `jpeg.Encode`, `imaging.Resize`, the
  float computation of the scale) is a parameter, bundled in `Codec`; so are
  SHA-256 and the JWT library, bundled in `AuthLib`.
* Functions that call the codec also return the list of calls they made, in
  order, so that "no encoder call" or "exactly three encodes" can be stated.
-/

namespace Softscan

/-! ## Errors -/

/-- Values of the Go type `error`. The sentinel values are the package-level variables of the
repository (`utils.ErrDecodeBase64`, `utils.ErrCompressLimit`,
`service.ErrUserNotFound`, `service.ErrUserExists`, `service.ErrInvalidLogin`,
`service.ErrSessionNotFound`) and `sql.ErrNoRows`; `lib` is an error value made by
library code (image decoder, JPEG encoder, SQL driver, HTTP client), which is
never identical to one of the sentinels; `errorf` is a value made on the spot by
`fmt.Errorf` or `errors.New`. -/
inductive GoError where
  | ErrDecodeBase64
  | ErrCompressLimit
  | ErrUserNotFound
  | ErrNoRows
  | ErrUserExists
  | ErrInvalidLogin
  | ErrSessionNotFound
  | lib (msg : String)
  | errorf (msg : String)
deriving DecidableEq, Repr

/-- The method `Error()` of an error value. -/
def GoError.Error : GoError → String
  | .ErrDecodeBase64 => "base64 解码失败"
  | .ErrCompressLimit => "图片压缩后仍大于 8MB"
  | .ErrUserNotFound => "用户不存在"
  | .ErrNoRows => "sql: no rows in result set"
  | .ErrUserExists => "用户已存在"
  | .ErrInvalidLogin => "用户名或密码错误"
  | .ErrSessionNotFound => "会话不存在"
  | .lib msg => msg
  | .errorf msg => msg

/-! ## utils/imagecompress.go -/

/-- A Go `[]byte`. -/
abbrev Bytes := List (Fin 256)

/-- Constant `maxImageSize = 8 * 1024 * 1024`. -/
def maxImageSize : Nat := 8 * 1024 * 1024

/-- Constant `maxCompressTimes = 3`. -/
def maxCompressTimes : Nat := 3

/-- The library functions used by the image code, over an abstract type `Img` of
decoded images.

* `b64decode` is `base64.StdEncoding.DecodeString` (`none` when it errs),
  `b64encode` is `base64.StdEncoding.EncodeToString`;
* `decode` is `image.Decode`, `encode img q` is `jpeg.Encode` with
  `Quality: q` (the bytes written to the buffer), both with the library's error
  message on failure;
* `dx`, `dy` are `Bounds().Dx()` and `Bounds().Dy()`;
* `resize img w h` is `imaging.Resize(img, w, h, imaging.Lanczos)`;
* `scaled d n` is the floating-point expression `int(float64(d) * scale)` where
  `scale` is `math.Sqrt(float64(maxImageSize) / float64(n))` raised to `0.5`
  when it is below `0.5`. -/
structure Codec (Img : Type) where
  b64decode : String → Option Bytes
  b64encode : Bytes → String
  decode : Bytes → Except String Img
  encode : Img → Int → Except String Bytes
  dx : Img → Int
  dy : Img → Int
  resize : Img → Int → Int → Img
  scaled : Int → Nat → Int

/-- One call into the image libraries. -/
inductive Call (Img : Type) where
  | decode (src : Bytes)
  | encode (img : Img) (quality : Int)
  | resize (img : Img) (w h : Int)

/-- Whether a call is a JPEG encode. -/
def Call.isEncode {Img : Type} : Call Img → Bool
  | .encode _ _ => true
  | _ => false

/-- Whether a call is an image decode. -/
def Call.isDecode {Img : Type} : Call Img → Bool
  | .decode _ => true
  | _ => false

/-- The values returned by `CompressToLimit`, `([]byte, error)`, with the
library calls made on the way. -/
structure CompressRet (Img : Type) where
  data : Option Bytes
  err : Option GoError
  calls : List (Call Img)

/-- Go `DecodeBase64Image`: the decoded bytes, or `ErrDecodeBase64`. -/
def DecodeBase64Image {Img : Type} (C : Codec Img) (b64 : String) :
    Option Bytes × Option GoError :=
  match C.b64decode b64 with
  | none => (none, some .ErrDecodeBase64)
  | some data => (some data, none)

/-- Go `EncodeToBase64`. -/
def EncodeToBase64 {Img : Type} (C : Codec Img) (data : Bytes) : String :=
  C.b64encode data

/-- The `for i := 0; i < maxCompressTimes; i++` loop of `CompressToLimit`
together with the `return nil, ErrCompressLimit` that follows it. The first
argument is the number of iterations left, `maxCompressTimes - i`. -/
def compressLoop {Img : Type} (C : Codec Img) : Nat → Img → Int → CompressRet Img
  | 0, _, _ => ⟨none, some .ErrCompressLimit, []⟩
  | n + 1, current, quality =>
    match C.encode current quality with
    | .error e => ⟨none, some (.lib e), [.encode current quality]⟩
    | .ok buf =>
      if buf.length ≤ maxImageSize then
        ⟨some buf, none, [.encode current quality]⟩
      else
        let newW := C.scaled (C.dx current) buf.length
        let newH := C.scaled (C.dy current) buf.length
        let newW := if newW < 1 then 1 else newW
        let newH := if newH < 1 then 1 else newH
        let next := C.resize current newW newH
        let quality' := quality - 10
        let quality' := if quality' < 40 then 40 else quality'
        let r := compressLoop C n next quality'
        ⟨r.data, r.err, .encode current quality :: .resize current newW newH :: r.calls⟩

/-- Go `CompressToLimit`. -/
def CompressToLimit {Img : Type} (C : Codec Img) (src : Bytes) : CompressRet Img :=
  if src.length ≤ maxImageSize then
    ⟨some src, none, []⟩
  else
    match C.decode src with
    | .error e => ⟨none, some (.lib e), [.decode src]⟩
    | .ok img =>
      let r := compressLoop C maxCompressTimes img 90
      ⟨r.data, r.err, .decode src :: r.calls⟩

/-! ## service/image.go -/

/-- Go `CompressResult`. -/
structure CompressResult where
  Base64 : String
  OriginalLen : Nat
  FinalLen : Nat
deriving DecidableEq, Repr

/-- The values returned by `PrepareImageForOCR`, `(*CompressResult, int, error)`,
with the library calls made on the way. -/
structure PrepareRet (Img : Type) where
  result : Option CompressResult
  code : Int
  err : Option GoError
  calls : List (Call Img)

/-- Go `PrepareImageForOCR`. The `log.Printf` line has no effect on the returned
values and is left out. -/
def PrepareImageForOCR {Img : Type} (C : Codec Img) (b64 : String) : PrepareRet Img :=
  match DecodeBase64Image C b64 with
  | (_, some err) => ⟨none, 1, some err, []⟩
  | (raw?, none) =>
    let raw : Bytes := raw?.getD []
    let originalSize := raw.length
    if originalSize ≤ 8 * 1024 * 1024 then
      ⟨some ⟨b64, originalSize, originalSize⟩, 0, none, []⟩
    else
      let r := CompressToLimit C raw
      match r.err, r.data with
      | some err, _ =>
        if err = .ErrCompressLimit then ⟨none, 2, some err, r.calls⟩
        else ⟨none, 5, some err, r.calls⟩
      | none, some compressed =>
        ⟨some ⟨EncodeToBase64 C compressed, originalSize, compressed.length⟩, 0, none, r.calls⟩
      | none, none =>
        ⟨some ⟨EncodeToBase64 C [], originalSize, 0⟩, 0, none, r.calls⟩

/-! ## service/db.go: the tables -/

/-- A row of `users`. `daily_limit` is nullable; `created_at` (a `time.Time`) is
an integer timestamp. -/
structure UserRow where
  id : Int
  username : String
  password_hash : String
  daily_limit : Option Int
  created_at : Int
deriving DecidableEq, Repr

/-- A row of `sessions`. -/
structure SessionRow where
  id : Int
  user_id : Int
  token : String
  expires_at : Int
deriving DecidableEq, Repr

/-- A row of `ocr_records`. -/
structure OCRRecordRow where
  id : Int
  user_id : Int
  text : String
  created_at : Int
deriving DecidableEq, Repr

/-- A row of `ocr_rate_limits`. -/
structure RateLimitRow where
  id : Int
  user_id : Int
  ip : String
  date : String
  created_at : Int
deriving DecidableEq, Repr

/-- A row of `config`. -/
structure ConfigRow where
  key : String
  value : String
  updated_at : Int
deriving DecidableEq, Repr

/-- The database created by `AutoMigrate`: the five tables, in rowid order, and
for the two tables the pipeline inserts into, the `AUTOINCREMENT` counter
(the largest id ever given out). Foreign keys are declared but SQLite does not
enforce them on the connection opened by `InitDB`. -/
structure Db where
  users : List UserRow
  sessions : List SessionRow
  ocr_records : List OCRRecordRow
  ocr_rate_limits : List RateLimitRow
  config : List ConfigRow
  seq_ocr_records : Int
  seq_ocr_rate_limits : Int
deriving DecidableEq, Repr

/-- Which SQL statements fail during one operation, each with the driver's
message (`none`: the statement is executed). A failure here is a storage error
(connection lost, database locked, ...), never `sql.ErrNoRows`, which arises
from the table contents. -/
structure Faults where
  limitQuery : Option String
  countQuery : Option String
  rateInsert : Option String
  recordInsert : Option String
  recordPrune : Option String
  configQuery : Option String
  userExistsQuery : Option String
  limitUpdate : Option String
deriving DecidableEq, Repr

/-- No statement fails. -/
def Faults.ok : Faults :=
  ⟨none, none, none, none, none, none, none, none⟩

/-- The id `AUTOINCREMENT` gives a new row: one more than the largest id that
ever existed in the table. -/
def nextId (seq : Int) (ids : List Int) : Int :=
  ids.foldl max seq + 1

/-! ## service/rate_limit.go -/

/-- Constant `maxDailyOCRRequests = 3`. -/
def maxDailyOCRRequests : Int := 3

/-- The statement `SELECT COALESCE(daily_limit, ?) FROM users WHERE id = ?`
followed by `Scan(&limit)`: the first matching row's value, `sql.ErrNoRows`
when there is none. -/
def selectDailyLimit (db : Db) (F : Faults) (userID : Int) : Except GoError Int :=
  match F.limitQuery with
  | some msg => .error (.lib msg)
  | none =>
    match db.users.find? (fun u => u.id = userID) with
    | none => .error .ErrNoRows
    | some u =>
      match u.daily_limit with
      | none => .ok maxDailyOCRRequests
      | some v => .ok v

/-- Go `GetUserDailyLimit`, returning `(int, error)`. -/
def GetUserDailyLimit (db : Db) (F : Faults) (userID : Int) : Int × Option GoError :=
  match selectDailyLimit db F userID with
  | .error err =>
    if err = .ErrNoRows then (maxDailyOCRRequests, none)
    else (maxDailyOCRRequests, some err)
  | .ok limit =>
    if limit ≤ 0 then (maxDailyOCRRequests, none)
    else (limit, none)

/-- The statement `SELECT COUNT(*) FROM ocr_rate_limits WHERE user_id = ? AND
date = ?` followed by `Scan(&count)`. -/
def selectCountToday (db : Db) (F : Faults) (userID : Int) (today : String) :
    Except GoError Int :=
  match F.countQuery with
  | some msg => .error (.lib msg)
  | none =>
    .ok ((db.ocr_rate_limits.filter
      (fun r => r.user_id = userID && r.date = today)).length : Nat)

/-- The values returned by `CheckOCRRateLimit`, `(bool, int, int, error)`. -/
structure CheckRet where
  allowed : Bool
  used : Int
  limit : Int
  err : Option GoError
deriving DecidableEq, Repr

/-- Go `CheckOCRRateLimit`, with the database it leaves. `today` is
`time.Now().Format("2006-01-02")`. -/
def CheckOCRRateLimit (db : Db) (F : Faults) (today : String) (userID : Int)
    (_ip : String) : CheckRet × Db :=
  match GetUserDailyLimit db F userID with
  | (limit, some err) => (⟨false, 0, limit, some err⟩, db)
  | (limit, none) =>
    let scanned : Int × Option GoError :=
      match selectCountToday db F userID today with
      | .ok c => (c, none)
      | .error e => (0, some e)
    let count := scanned.1
    let err := scanned.2
    if err ≠ none ∧ err ≠ some .ErrNoRows then
      (⟨false, 0, limit, err⟩, db)
    else if count ≥ limit then
      (⟨false, count, limit,
        some (.errorf ("今日识别次数已达上限（" ++ toString limit ++ "次/天），请明天再试"))⟩, db)
    else
      (⟨true, count, limit, none⟩, db)

/-- Go `RecordOCRRequest`: the returned error and the database it leaves. `today`
is `time.Now().Format("2006-01-02")`, `now` is `Now()`. -/
def RecordOCRRequest (db : Db) (F : Faults) (today : String) (now : Int)
    (userID : Int) (ip : String) : Option GoError × Db :=
  match F.rateInsert with
  | some msg => (some (.lib msg), db)
  | none =>
    let id := nextId db.seq_ocr_rate_limits (db.ocr_rate_limits.map (fun r => r.id))
    (none, { db with
      ocr_rate_limits := db.ocr_rate_limits ++ [⟨id, userID, ip, today, now⟩],
      seq_ocr_rate_limits := id })

/-! ## service/user.go -/

/-- Go `UpdateUserDailyLimit`: the returned error and the database it leaves. -/
def UpdateUserDailyLimit (db : Db) (F : Faults) (userID : Int) (limit : Int) :
    Option GoError × Db :=
  let limit := if limit ≤ 0 then 3 else limit
  match F.userExistsQuery with
  | some msg => (some (.lib msg), db)
  | none =>
    let found := (db.users.filter (fun u => u.id = userID)).length
    if found = 0 then (some .ErrUserNotFound, db)
    else
      match F.limitUpdate with
      | some msg => (some (.lib msg), db)
      | none =>
        (none, { db with
          users := db.users.map
            (fun u => if u.id = userID then { u with daily_limit := some limit } else u) })

/-- Go `GetUserDailyLimitUsage`, returning `(int, error)`. -/
def GetUserDailyLimitUsage (db : Db) (F : Faults) (today : String) (userID : Int) :
    Int × Option GoError :=
  match selectCountToday db F userID today with
  | .ok c => (c, none)
  | .error e => if e = .ErrNoRows then (0, none) else (0, some e)

/-! ## service/ocr_history.go -/

/-- Constant `maxHistoryPerUser = 20`. -/
def maxHistoryPerUser : Nat := 20

/-- The subquery `SELECT id FROM ocr_records WHERE user_id = ? ORDER BY
created_at DESC LIMIT ?`. Rows with equal `created_at` keep their table order. -/
def recentRecordIds (rows : List OCRRecordRow) (userID : Int) (limit : Nat) : List Int :=
  (((rows.filter (fun r => r.user_id = userID)).insertionSort
    (fun a b => a.created_at ≥ b.created_at)).take limit).map (fun r => r.id)

/-- Go `SaveOCRRecord`: the returned error and the database it leaves. `now` is
`Now()`. The error of the pruning `DELETE` is discarded. -/
def SaveOCRRecord (db : Db) (F : Faults) (now : Int) (userID : Int) (text : String) :
    Option GoError × Db :=
  if text = "" then (none, db)
  else
    match F.recordInsert with
    | some msg => (some (.lib msg), db)
    | none =>
      let id := nextId db.seq_ocr_records (db.ocr_records.map (fun r => r.id))
      let rows := db.ocr_records ++ [⟨id, userID, text, now⟩]
      let rows' :=
        match F.recordPrune with
        | some _ => rows
        | none =>
          let keep := recentRecordIds rows userID maxHistoryPerUser
          rows.filter (fun r => !(r.user_id = userID && !(keep.contains r.id)))
      (none, { db with ocr_records := rows', seq_ocr_records := id })

/-! ## service/config.go -/

/-- Go `OCREngineConfig`. -/
structure OCREngineConfig where
  URL : String
  Token : String
deriving DecidableEq, Repr

/-- The two environment variables read by `GetOCREngineConfig` (`os.Getenv`
gives the empty string for an unset variable). -/
structure OsEnv where
  OCR_ENGINE_URL : String
  OCR_ENGINE_TOKEN : String
deriving DecidableEq, Repr

/-- Go `GetOCREngineConfig`. -/
def GetOCREngineConfig (db : Db) (F : Faults) (env : OsEnv) : OCREngineConfig :=
  let rows : List ConfigRow :=
    match F.configQuery with
    | some _ => []
    | none => db.config.filter
        (fun r => r.key = "ocr_engine_url" || r.key = "ocr_engine_token")
  let config : OCREngineConfig := rows.foldl (fun config r =>
    if r.key = "ocr_engine_url" ∧ r.value ≠ "" then { config with URL := r.value }
    else if r.key = "ocr_engine_token" ∧ r.value ≠ "" then { config with Token := r.value }
    else config) ⟨"", ""⟩
  let config : OCREngineConfig :=
    if config.URL = "" then
      if env.OCR_ENGINE_URL ≠ "" then { config with URL := env.OCR_ENGINE_URL }
      else { config with URL := "http://example.com/ocr" }
    else config
  if config.Token = "" then
    if env.OCR_ENGINE_TOKEN ≠ "" then { config with Token := env.OCR_ENGINE_TOKEN }
    else config
  else config

/-! ## service/ocr.go -/

/-- Go `OCRBox`. The confidence, a `float64` read from JSON, is a rational. -/
structure OCRBox where
  Text : String
  Left : Int
  Top : Int
  Right : Int
  Bottom : Int
  Confidence : Rat
deriving DecidableEq, Repr

/-- Go `ocrEngineBox`. The `float64` fields, read from JSON, are rationals. -/
structure ocrEngineBox where
  Text : String
  Left : Rat
  Top : Rat
  Right : Rat
  Bottom : Rat
  Rate : Rat
deriving DecidableEq, Repr

/-- Go `ocrEngineResponse` (its `Result` field). -/
structure ocrEngineResponse where
  ImgPath : String
  ErrCode : Int
  Width : Int
  Height : Int
  OCRResponse : List ocrEngineBox
deriving DecidableEq, Repr

/-- Go `OCRResult`, without its `Time` field, which no caller reads. -/
structure OCRResult where
  ErrCode : Int
  Msg : String
  Text : String := ""
  Boxes : List OCRBox := []
  Width : Int := 0
  Height : Int := 0
deriving DecidableEq, Repr

/-- What the HTTP exchange with the engine comes to: `http.NewRequestWithContext`
fails, `client.Do` fails (transport error, 30 s timeout), `io.ReadAll` fails, or
a response arrives with a status code and a body on which `json.Unmarshal`
either fails or yields an `ocrEngineResponse`. -/
inductive HttpOutcome where
  | newRequestError (msg : String)
  | doError (msg : String)
  | readError (msg : String)
  | response (status : Int) (body : Except String ocrEngineResponse)

/-- The Go conversion `int(x)` of a `float64`: truncation toward zero, for values
within the range of a 64-bit `int`; outside that range Go leaves the result to
the implementation, and this definition keeps the mathematical integer. -/
def floatToInt (x : Rat) : Int :=
  Int.tdiv x.num x.den

/-- The loop of `CallOCREngine` over the engine's boxes: the mapped boxes and the
non-empty texts, both in the original order. -/
def mapBoxes : List ocrEngineBox → List OCRBox × List String
  | [] => ([], [])
  | b :: rest =>
    let r := mapBoxes rest
    let box : OCRBox :=
      ⟨b.Text, floatToInt b.Left, floatToInt b.Top, floatToInt b.Right,
        floatToInt b.Bottom, b.Rate⟩
    (box :: r.1, if b.Text ≠ "" then b.Text :: r.2 else r.2)

/-- Go `CallOCREngine`, returning `(*OCRResult, error)`; the result pointer is never
`nil`. `http` is the exchange with the engine, given the configuration used and
the image sent. -/
def CallOCREngine (db : Db) (F : Faults) (env : OsEnv)
    (http : OCREngineConfig → String → HttpOutcome) (base64Img : String) :
    OCRResult × Option GoError :=
  let config := GetOCREngineConfig db F env
  match http config base64Img with
  | .newRequestError msg => ({ ErrCode := 3, Msg := "创建 OCR 请求失败" }, some (.lib msg))
  | .doError msg => ({ ErrCode := 3, Msg := "调用 OCR 引擎失败" }, some (.lib msg))
  | .readError msg => ({ ErrCode := 3, Msg := "读取 OCR 响应失败" }, some (.lib msg))
  | .response status body =>
    if status ≠ 200 then
      ({ ErrCode := 3, Msg := "OCR 引擎返回状态码 " ++ toString status },
        some (.errorf "ocr engine error"))
    else
      match body with
      | .error msg => ({ ErrCode := 3, Msg := "解析 OCR 响应失败" }, some (.lib msg))
      | .ok engineResp =>
        if engineResp.ErrCode ≠ 0 then
          ({ ErrCode := 3, Msg := "OCR 引擎错误码 " ++ toString engineResp.ErrCode },
            some (.errorf "ocr engine inner error"))
        else
          let r := mapBoxes engineResp.OCRResponse
          ({ ErrCode := 0, Msg := "success", Text := String.intercalate "\n" r.2,
             Boxes := r.1, Width := engineResp.Width, Height := engineResp.Height }, none)

/-! ## handler/ocr.go -/

/-- The value stored under the key `"userID"` of the gin context: an `int64`, or
a value of another type. -/
inductive CtxValue where
  | int64 (v : Int)
  | other
deriving DecidableEq, Repr

/-- The fields `text`, `boxes`, `width`, `height` of the success response. -/
structure OCRPayload where
  text : String
  boxes : List OCRBox
  width : Int
  height : Int
deriving DecidableEq, Repr

/-- What a handler writes with `c.JSON`: the HTTP status and the keys of the
`gin.H` map (`none`: the key is absent). -/
structure Response where
  status : Nat
  errcode : Int
  msg : String
  used : Option Int := none
  limit : Option Int := none
  ocr : Option OCRPayload := none
deriving DecidableEq, Repr

/-- One request as `OCRHandler` sees it, with what its environment does while it
is handled.

* `userID` is `c.Get("userID")`; `clientIP`, `remoteIP` are `c.ClientIP()` and
  `c.RemoteIP()`;
* `image` is the `image` field of the JSON body, `none` when the body is not
  JSON that carries it (the field is `binding:"required"`);
* `faults` says which SQL statements fail;
* `dayAtCheck` and `dayAtRecord` are `time.Now().Format("2006-01-02")` as read by
  `CheckOCRRateLimit` and by `RecordOCRRequest`; `nowAtRecord` and `nowAtSave`
  are `Now()` as read by `RecordOCRRequest` and by `SaveOCRRecord`;
* `env` and `http` are the process environment and the exchange with the
  engine. -/
structure Request where
  userID : Option CtxValue
  clientIP : String
  remoteIP : String
  image : Option String
  faults : Faults
  dayAtCheck : String
  dayAtRecord : String
  nowAtRecord : Int
  nowAtSave : Int
  env : OsEnv
  http : OCREngineConfig → String → HttpOutcome

/-- Go `c.ShouldBindJSON(&req)` for `ocrRequest`: an error (`none`) when the body
does not parse or the required field `image` is missing or empty. -/
def bindOCRRequest (image : Option String) : Option String :=
  match image with
  | none => none
  | some s => if s = "" then none else some s

/-- The two bookkeeping writes of `OCRHandler` after a successful engine call,
`RecordOCRRequest` then `SaveOCRRecord`, both errors discarded. -/
def recordSuccess (db : Db) (req : Request) (uid : Int) (ip : String) (text : String) : Db :=
  let db1 := (RecordOCRRequest db req.faults req.dayAtRecord req.nowAtRecord uid ip).2
  (SaveOCRRecord db1 req.faults req.nowAtSave uid text).2

/-- The client address used by `OCRHandler`: `c.ClientIP()`, or `c.RemoteIP()`
when that is empty. -/
def requestIP (req : Request) : String :=
  if req.clientIP = "" then req.remoteIP else req.clientIP

/-- The body of the success response of `OCRHandler`. -/
def successResponse (result : OCRResult) : Response :=
  { status := 200, errcode := result.ErrCode, msg := result.Msg,
    ocr := some ⟨result.Text, result.Boxes, result.Width, result.Height⟩ }

/-- Go `OCRHandler`: the response written and the database left. -/
def OCRHandler {Img : Type} (C : Codec Img) (db : Db) (req : Request) : Response × Db :=
  match req.userID with
  | none => ({ status := 401, errcode := 4, msg := "未找到用户信息" }, db)
  | some .other => ({ status := 401, errcode := 4, msg := "用户信息类型错误" }, db)
  | some (.int64 uid) =>
    let ip := requestIP req
    let chk := CheckOCRRateLimit db req.faults req.dayAtCheck uid ip
    let db := chk.2
    match chk.1.err with
    | some err =>
      if !chk.1.allowed then
        ({ status := 429, errcode := 6, msg := err.Error, used := some chk.1.used,
           limit := some chk.1.limit }, db)
      else
        ({ status := 500, errcode := 5, msg := "检查调用限制失败" }, db)
    | none =>
      match bindOCRRequest req.image with
      | none => ({ status := 400, errcode := 5, msg := "参数错误" }, db)
      | some image =>
        let prep := PrepareImageForOCR C image
        match prep.err, prep.result with
        | some _, _ =>
          if prep.code = 1 then
            ({ status := 400, errcode := 1, msg := GoError.ErrDecodeBase64.Error }, db)
          else if prep.code = 2 then
            ({ status := 400, errcode := 2, msg := GoError.ErrCompressLimit.Error }, db)
          else
            ({ status := 500, errcode := 5, msg := "图片处理失败" }, db)
        | none, none =>
          -- a nil result with a nil error: never returned by PrepareImageForOCR
          ({ status := 500, errcode := 5, msg := "图片处理失败" }, db)
        | none, some comp =>
          match CallOCREngine db req.faults req.env req.http comp.Base64 with
          | (result, some _) => ({ status := 502, errcode := 3, msg := result.Msg }, db)
          | (result, none) =>
            (successResponse result, recordSuccess db req uid ip result.Text)

/-- Requests handled one after another, each on the database left by the one
before: the responses in order and the final database. -/
def serve {Img : Type} (C : Codec Img) : Db → List Request → List Response × Db
  | db, [] => ([], db)
  | db, req :: rest =>
    let r := OCRHandler C db req
    let rs := serve C r.2 rest
    (r.1 :: rs.1, rs.2)

/-! ## service/ocr_history.go: reading the history -/

/-- Go `GetRecentOCRRecords`, returning `([]model.OCRRecord, error)`; a `nil` list
is the empty list. `queryFault` is the failure of `db.QueryContext`, if any. Rows
with equal `created_at` come in table order. -/
def GetRecentOCRRecords (db : Db) (queryFault : Option String) (userID : Int)
    (limit : Int) : List OCRRecordRow × Option GoError :=
  let limit := if limit ≤ 0 ∨ limit > (maxHistoryPerUser : Int) then (maxHistoryPerUser : Int)
    else limit
  match queryFault with
  | some msg => ([], some (.lib msg))
  | none =>
    ((((db.ocr_records.filter (fun r => r.user_id = userID)).insertionSort
      (fun a b => a.created_at ≥ b.created_at)).take limit.toNat), none)

/-! ## utils/jwt.go -/

/-- Constant `defaultSecret`. -/
def defaultSecret : String := "VictoriaSteam001"

/-- Constant `tokenExpireDays = 7`. -/
def tokenExpireDays : Int := 7

/-- The duration `time.Hour`, in nanoseconds; the timestamps of the session code
are nanoseconds too. -/
def Hour : Int := 3600000000000

/-- Go `Claims`: the user id and the `ExpiresAt` of `jwt.RegisteredClaims` (`none`
when the claim is absent). -/
structure Claims where
  UserID : Int
  ExpiresAt : Option Int
deriving DecidableEq, Repr

/-- The library functions used by the session code.

* `sha256hex pw` is `hex.EncodeToString` of `sha256.Sum256([]byte(pw))`;
* `newNumericDate` is `jwt.NewNumericDate`;
* `signedString claims key` is `jwt.NewWithClaims(jwt.SigningMethodHS256,
  claims).SignedString(key)`: the token and the error;
* `parseWithClaims token key` is `jwt.ParseWithClaims` with a key function that
  returns `key`, at the moment of the call: the library's error, or the claims
  and the flag `token.Valid`. -/
structure AuthLib where
  sha256hex : String → String
  newNumericDate : Int → Int
  signedString : Claims → String → String × Option String
  parseWithClaims : String → String → Except String (Claims × Bool)

/-- Go `getJWTSecret`; the argument is `os.Getenv("STEAM_JWT_SECRET")`. -/
def getJWTSecret (secretEnv : String) : String :=
  if secretEnv = "" then defaultSecret else secretEnv

/-- The values returned by `GenerateToken`, `(string, time.Time, error)`. -/
structure TokenRet where
  token : String
  expireAt : Int
  err : Option GoError
deriving DecidableEq, Repr

/-- Go `GenerateToken`; `now` is `time.Now()`. -/
def GenerateToken (L : AuthLib) (secretEnv : String) (now : Int) (userID : Int) : TokenRet :=
  let expireAt := now + Hour * 24 * tokenExpireDays
  let claims : Claims := ⟨userID, some (L.newNumericDate expireAt)⟩
  let signed := L.signedString claims (getJWTSecret secretEnv)
  ⟨signed.1, expireAt, signed.2.map GoError.lib⟩

/-- Go `ParseToken`, returning `(*Claims, error)`. The last return is
`jwt.ErrTokenInvalidClaims`. -/
def ParseToken (L : AuthLib) (secretEnv : String) (tokenString : String) :
    Option Claims × Option GoError :=
  match L.parseWithClaims tokenString (getJWTSecret secretEnv) with
  | .error msg => (none, some (.lib msg))
  | .ok (claims, valid) =>
    if valid then (some claims, none)
    else (none, some (.lib "token has invalid claims"))

/-! ## service/auth.go -/

/-- Which SQL statements of the session code fail, each with the driver's
message (`none`: the statement is executed). -/
structure AuthFaults where
  userQuery : Option String
  sessionInsert : Option String
  sessionQuery : Option String
deriving DecidableEq, Repr

/-- No statement of the session code fails. -/
def AuthFaults.ok : AuthFaults := ⟨none, none, none⟩

/-- Go `hashPassword`. -/
def hashPassword (L : AuthLib) (pw : String) : String :=
  L.sha256hex pw

/-- Go `Login`, returning `(string, error)`, with the database it leaves. `now` is
the `time.Now()` read by `GenerateToken`. The column `username` is unique, so
the query has at most one row; the column `token` is unique, so the insert fails
when the token is already stored. Rows of `sessions` are never deleted, so the
id given to the new row is one more than the largest id present. -/
def Login (L : AuthLib) (db : Db) (F : AuthFaults) (secretEnv : String) (now : Int)
    (username password : String) : (String × Option GoError) × Db :=
  match F.userQuery with
  | some msg => (("", some (.lib msg)), db)
  | none =>
    match db.users.find? (fun u => u.username = username) with
    | none => (("", some .ErrInvalidLogin), db)
    | some u =>
      if u.password_hash ≠ hashPassword L password then
        (("", some .ErrInvalidLogin), db)
      else
        let g := GenerateToken L secretEnv now u.id
        match g.err with
        | some err => (("", some err), db)
        | none =>
          match F.sessionInsert with
          | some msg => (("", some (.errorf ("保存会话失败: " ++ msg))), db)
          | none =>
            if db.sessions.any (fun r => r.token = g.token) then
              (("", some (.errorf
                ("保存会话失败: " ++ "UNIQUE constraint failed: sessions.token"))), db)
            else
              let id := nextId 0 (db.sessions.map (fun r => r.id))
              ((g.token, none),
                { db with sessions := db.sessions ++ [⟨id, u.id, g.token, g.expireAt⟩] })

/-- Go `ValidateToken`, returning `(*model.Session, error)`. `now` is the `Now()`
compared with the expiry; `a.Before(b)` is `a < b`. Every error of the session
query, `sql.ErrNoRows` or a failure, gives `ErrSessionNotFound`. `ParseToken`
never returns nil claims with a nil error. -/
def ValidateToken (L : AuthLib) (db : Db) (F : AuthFaults) (secretEnv : String)
    (now : Int) (token : String) : Option SessionRow × Option GoError :=
  match ParseToken L secretEnv token with
  | (_, some err) => (none, some err)
  | (claims?, none) =>
    let scanned : Option SessionRow :=
      match F.sessionQuery with
      | some _ => none
      | none => db.sessions.find? (fun r => r.token = token)
    match scanned with
    | none => (none, some .ErrSessionNotFound)
    | some s =>
      if (claims?.map (fun c => c.UserID)) ≠ some s.user_id then
        (none, some (.errorf "token 与会话不匹配"))
      else if s.expires_at < now then
        (none, some (.errorf "会话已过期"))
      else
        (some s, none)

/-! ## Sample data -/

/-- A slice of `n` zero bytes. -/
def zeros (n : Nat) : Bytes := List.replicate n 0

/-- A codec for examples, over images that are just their width and height. The
text `"bad"` is not base64, `"big"` decodes to 8388609 bytes and any other text
to three bytes; the decoder accepts everything or nothing according to
`decodes`; every JPEG encoding has `encLen` bytes; scaling halves. -/
def stubCodec (decodes : Bool) (encLen : Nat) : Codec (Int × Int) where
  b64decode s :=
    if s = "bad" then none
    else if s = "big" then some (zeros 8388609)
    else some [1, 2, 3]
  b64encode _ := "out"
  decode _ := if decodes then .ok (4000, 3000) else .error "image: unknown format"
  encode _ _ := .ok (zeros encLen)
  dx img := img.1
  dy img := img.2
  resize _ w h := (w, h)
  scaled d _ := d / 2

/-- A database with one user, `alice`, id 1, whose `daily_limit` is 3, and
nothing else. -/
def sampleDb : Db where
  users := [⟨1, "alice", "hash", some 3, 0⟩]
  sessions := []
  ocr_records := []
  ocr_rate_limits := []
  config := []
  seq_ocr_records := 0
  seq_ocr_rate_limits := 0

/-- The day of the examples. -/
def sampleDay : String := "2025-03-01"

/-- The number of `ocr_rate_limits` rows of a user dated a given day. -/
def quotaCount (db : Db) (userID : Int) (day : String) : Nat :=
  db.ocr_rate_limits.countP (fun row => decide (row.user_id = userID ∧ row.date = day))

/-- The upstream call of a request succeeds: the body binds, the image is
prepared without error, and `CallOCREngine` returns a nil error. -/
def upstreamSucceeds {Img : Type} (C : Codec Img) (db : Db) (req : Request) : Prop :=
  ∃ image comp result, bindOCRRequest req.image = some image ∧
    (PrepareImageForOCR C image).err = none ∧
    (PrepareImageForOCR C image).result = some comp ∧
    CallOCREngine db req.faults req.env req.http comp.Base64 = (result, none)

/-- The database `sampleDb` after three recorded OCR calls of user 1 on
`sampleDay`. -/
def sampleDbUsed : Db :=
  (RecordOCRRequest (RecordOCRRequest (RecordOCRRequest sampleDb Faults.ok sampleDay 10 1
    "10.0.0.1").2 Faults.ok sampleDay 20 1 "10.0.0.1").2 Faults.ok sampleDay 30 1 "10.0.0.1").2

/-- The database `sampleDbUsed` after the administrator lowers the daily limit of
user 1 to 1. -/
def sampleDbLowered : Db :=
  (UpdateUserDailyLimit sampleDbUsed Faults.ok 1 1).2

/-- An engine that answers 200 with one recognised box. -/
def sampleHttp : OCREngineConfig → String → HttpOutcome :=
  fun _ _ => .response 200 (.ok ⟨"/tmp/a.png", 0, 710, 72, [⟨"hello", 5, 13, 696, 45, 1⟩]⟩)

/-- A request of user 1 on `sampleDay` with a small image, no failing statement
and the engine `sampleHttp`. -/
def sampleRequest : Request where
  userID := some (.int64 1)
  clientIP := "10.0.0.1"
  remoteIP := "10.0.0.1"
  image := some "small"
  faults := Faults.ok
  dayAtCheck := sampleDay
  dayAtRecord := sampleDay
  nowAtRecord := 100
  nowAtSave := 101
  env := ⟨"", ""⟩
  http := sampleHttp

/-- The request `sampleRequest` during which the `COUNT(*)` query of the quota
check fails. -/
def sampleRequestCountFails : Request :=
  { sampleRequest with
    faults := { Faults.ok with countQuery := some "database is locked" } }

/-- The request `sampleRequest` during which the `daily_limit` query of the quota
check fails. -/
def sampleRequestLimitFails : Request :=
  { sampleRequest with
    faults := { Faults.ok with limitQuery := some "database is locked" } }

/-- The quality of a JPEG encode call, `none` for the other calls. -/
def Call.quality? {Img : Type} : Call Img → Option Int
  | .encode _ quality => some quality
  | _ => none

/-- The qualities of the JPEG encode calls of a call log, in order. -/
def encodeQualities {Img : Type} (calls : List (Call Img)) : List Int :=
  calls.filterMap Call.quality?

/-- The quality update at the end of an iteration of the loop of
`CompressToLimit`: `quality -= 10`, then raised to 40 when below. -/
def nextQuality (quality : Int) : Int :=
  if quality - 10 < 40 then 40 else quality - 10

/-- The qualities of `n` consecutive iterations of the loop of
`CompressToLimit` that starts with `quality`. -/
def qualitySchedule : Nat → Int → List Int
  | 0, _ => []
  | n + 1, quality => quality :: qualitySchedule n (nextQuality quality)

/-- The width and height asked of `imaging.Resize` in a resize call, `none` for
the other calls. -/
def Call.size? {Img : Type} : Call Img → Option (Int × Int)
  | .resize _ w h => some (w, h)
  | _ => none

/-- An exchange with the engine that `CallOCREngine` treats as failed: a
transport error, a status other than 200, a body that does not parse, or an
engine `errcode` other than 0. -/
def upstreamFailure : HttpOutcome → Bool
  | .newRequestError _ => true
  | .doError _ => true
  | .readError _ => true
  | .response status body =>
    status ≠ 200 ||
      (match body with
       | .error _ => true
       | .ok engineResp => engineResp.ErrCode ≠ 0)

/-- The mapping of one engine box to an `OCRBox` in `CallOCREngine`. -/
def toOCRBox (b : ocrEngineBox) : OCRBox :=
  ⟨b.Text, floatToInt b.Left, floatToInt b.Top, floatToInt b.Right, floatToInt b.Bottom,
    b.Rate⟩

/-- An engine that answers 200 with `errcode` 7. -/
def sampleHttpErr7 : OCREngineConfig → String → HttpOutcome :=
  fun _ _ => .response 200 (.ok ⟨"/tmp/a.png", 7, 0, 0, []⟩)

/-- An engine that answers 200 with three boxes, the middle one without text. -/
def sampleHttpThree : OCREngineConfig → String → HttpOutcome :=
  fun _ _ => .response 200 (.ok ⟨"/tmp/a.png", 0, 710, 72,
    [⟨"first", 5, 13, 696, 45, 1⟩, ⟨"", 5, 50, 696, 60, 1⟩, ⟨"second", 5, 70, 696, 90, 1⟩]⟩)

/-- An engine that answers 200 with one box that has no text. -/
def sampleHttpNoText : OCREngineConfig → String → HttpOutcome :=
  fun _ _ => .response 200 (.ok ⟨"/tmp/a.png", 0, 710, 72, [⟨"", 5, 13, 696, 45, 1⟩]⟩)

/-- The request `sampleRequest` with the engine answering `errcode` 7. -/
def sampleRequestErr7 : Request :=
  { sampleRequest with http := sampleHttpErr7 }

/-- The request `sampleRequest` with the engine recognising no text. -/
def sampleRequestNoText : Request :=
  { sampleRequest with http := sampleHttpNoText }

/-- A database with 22 history records of user 1, created at times 1 to 22 in
table order, and one record of user 2. -/
def sampleDbHistory : Db :=
  { sampleDb with
    ocr_records :=
      (List.range 22).map (fun i => ⟨(i : Int) + 1, 1, "text", (i : Int) + 1⟩) ++
        [⟨23, 2, "other", 5⟩],
    seq_ocr_records := 23 }

/-- Session libraries for examples: the only token that parses is `"good"`,
with user id 1; signing writes the claims and the key into the token. -/
def stubAuth : AuthLib where
  sha256hex pw := "sha:" ++ pw
  newNumericDate t := t - t % 1000000000
  signedString c key :=
    ("jwt." ++ toString c.UserID ++ "." ++ toString (c.ExpiresAt.getD 0) ++ "." ++ key, none)
  parseWithClaims token _ :=
    if token = "good" then .ok (⟨1, some 2000⟩, true)
    else .error "token signature is invalid"

/-- A database with the user `alice`, whose password is `"secret"`, and two
sessions of hers: the token `"good"` expiring at 1000 and the token `"forged"`
expiring at 999. -/
def sampleDbSessions : Db :=
  { sampleDb with
    users := [⟨1, "alice", "sha:secret", some 3, 0⟩],
    sessions := [⟨1, 1, "good", 1000⟩, ⟨2, 1, "forged", 999⟩] }

/-! ## Theorems: image preparation -/

/-- The length of `zeros n`. -/
theorem zeros_length (n : Nat) : (zeros n).length = n := by
  simp [zeros]

/-- C1: an input of at most 8 MiB (8388608 bytes included, the empty slice
included) is returned by `CompressToLimit` as it is, with a nil error and without
any call to the image decoder, the JPEG encoder or the resizer; and
`PrepareImageForOCR` hands back the request's own base64 text for such a
payload, again without any library call. -/
theorem C1_compliant_input_unchanged {Img : Type} (C : Codec Img) (src : Bytes)
    (h : src.length ≤ 8 * 1024 * 1024) :
    (CompressToLimit C src).data = some src ∧
    (CompressToLimit C src).err = none ∧
    (CompressToLimit C src).calls = [] ∧
    ∀ b64, C.b64decode b64 = some src →
      (PrepareImageForOCR C b64).result = some ⟨b64, src.length, src.length⟩ ∧
      (PrepareImageForOCR C b64).code = 0 ∧
      (PrepareImageForOCR C b64).err = none ∧
      (PrepareImageForOCR C b64).calls = [] := by
  have hmax : src.length ≤ maxImageSize := h
  refine ⟨?_, ?_, ?_, ?_⟩
  · simp [CompressToLimit, hmax]
  · simp [CompressToLimit, hmax]
  · simp [CompressToLimit, hmax]
  · intro b64 hb
    simp [PrepareImageForOCR, DecodeBase64Image, hb, h]

/-- C1 at the boundary: an input of exactly 8388608 bytes. -/
theorem C1_compliant_input_unchanged_witness :
    (zeros 8388608).length ≤ 8 * 1024 * 1024 ∧
    (CompressToLimit (stubCodec true 0) (zeros 8388608)).data = some (zeros 8388608) ∧
    (CompressToLimit (stubCodec true 0) (zeros 8388608)).err = none ∧
    (CompressToLimit (stubCodec true 0) (zeros 8388608)).calls = [] :=
  have h : (zeros 8388608).length ≤ 8 * 1024 * 1024 := by
    rw [zeros_length]
  ⟨h, (C1_compliant_input_unchanged (stubCodec true 0) _ h).1,
    (C1_compliant_input_unchanged (stubCodec true 0) _ h).2.1,
    (C1_compliant_input_unchanged (stubCodec true 0) _ h).2.2.1⟩

/-- A nil error from the loop comes with data of at most `maxImageSize` bytes. -/
theorem compressLoop_ok_size {Img : Type} (C : Codec Img) :
    ∀ (n : Nat) (current : Img) (quality : Int),
      (compressLoop C n current quality).err = none →
      ∃ out, (compressLoop C n current quality).data = some out ∧
        out.length ≤ maxImageSize := by
  intro n
  induction n with
  | zero => intro current quality h; simp [compressLoop] at h
  | succ n ih =>
    intro current quality h
    unfold compressLoop at h ⊢
    cases henc : C.encode current quality with
    | error e => rw [henc] at h; simp at h
    | ok buf =>
      rw [henc] at h
      simp only at h ⊢
      by_cases hle : buf.length ≤ maxImageSize
      · exact ⟨buf, by simp [hle], hle⟩
      · simp only [hle, if_false] at h ⊢
        exact ih _ _ h

/-- A nil error from `CompressToLimit` comes with data of at most
`maxImageSize` bytes. -/
theorem CompressToLimit_ok_size {Img : Type} (C : Codec Img) (src : Bytes)
    (h : (CompressToLimit C src).err = none) :
    ∃ out, (CompressToLimit C src).data = some out ∧ out.length ≤ maxImageSize := by
  unfold CompressToLimit at h ⊢
  by_cases hle : src.length ≤ maxImageSize
  · exact ⟨src, by simp [hle], hle⟩
  · simp only [hle, if_false] at h ⊢
    cases hdec : C.decode src with
    | error e => rw [hdec] at h; simp at h
    | ok img =>
      rw [hdec] at h
      simp only at h ⊢
      exact compressLoop_ok_size C _ _ _ h

/-- C2: whatever the decoder, the JPEG encoder and the resizer do, a nil error
from `CompressToLimit` comes with a byte slice of at most 8 MiB, and a nil error
from `PrepareImageForOCR` comes with a result whose `FinalLen` is at most
8 MiB. -/
theorem C2_success_within_ceiling {Img : Type} (C : Codec Img) :
    (∀ src : Bytes, (CompressToLimit C src).err = none →
      ∃ out, (CompressToLimit C src).data = some out ∧ out.length ≤ 8 * 1024 * 1024) ∧
    (∀ b64 : String, (PrepareImageForOCR C b64).err = none →
      ∃ r, (PrepareImageForOCR C b64).result = some r ∧
        r.FinalLen ≤ 8 * 1024 * 1024) := by
  refine ⟨fun src h => CompressToLimit_ok_size C src h, ?_⟩
  intro b64 h
  unfold PrepareImageForOCR at h ⊢
  cases hb : DecodeBase64Image C b64 with
  | mk raw? err? =>
    rw [hb] at h
    cases err? with
    | some e => simp at h
    | none =>
      simp only at h ⊢
      by_cases hle : (raw?.getD []).length ≤ 8 * 1024 * 1024
      · simp only [hle, if_true] at h ⊢
        exact ⟨_, rfl, hle⟩
      · simp only [hle, if_false] at h ⊢
        cases herr : (CompressToLimit C (raw?.getD [])).err with
        | some e =>
          rw [herr] at h
          by_cases he : e = GoError.ErrCompressLimit <;> simp [he] at h
        | none =>
          obtain ⟨out, hout, hlen⟩ := CompressToLimit_ok_size C _ herr
          rw [hout]
          exact ⟨_, rfl, hlen⟩

/-- C2 on an input of 8388609 bytes whose first JPEG encoding has 1000 bytes. -/
theorem C2_success_within_ceiling_witness :
    (CompressToLimit (stubCodec true 1000) (zeros 8388609)).err = none ∧
    ∃ out, (CompressToLimit (stubCodec true 1000) (zeros 8388609)).data
      = some out ∧ out.length ≤ 8 * 1024 * 1024 :=
  have h : (CompressToLimit (stubCodec true 1000) (zeros 8388609)).err = none := by
    simp only [CompressToLimit, compressLoop, stubCodec, maxImageSize, maxCompressTimes,
      zeros_length]
    rfl
  ⟨h, (C2_success_within_ceiling (stubCodec true 1000)).1 _ h⟩

/-- Every iteration of the loop starts with an encode of the current image. -/
theorem compressLoop_first_call {Img : Type} (C : Codec Img) (n : Nat) (current : Img)
    (quality : Int) :
    Call.encode current quality ∈ (compressLoop C (n + 1) current quality).calls := by
  unfold compressLoop
  cases henc : C.encode current quality with
  | error e => simp
  | ok buf =>
    by_cases hle : buf.length ≤ maxImageSize <;> simp [hle]

/-- When every encode of the loop yields more than `maxImageSize` bytes, the
loop runs all its `n` iterations, encodes once in each and ends with
`ErrCompressLimit`. -/
theorem compressLoop_all_oversize {Img : Type} (C : Codec Img) :
    ∀ (n : Nat) (current : Img) (quality : Int),
      (∀ im q, Call.encode im q ∈ (compressLoop C n current quality).calls →
        ∃ out, C.encode im q = .ok out ∧ maxImageSize < out.length) →
      (compressLoop C n current quality).data = none ∧
      (compressLoop C n current quality).err = some .ErrCompressLimit ∧
      ((compressLoop C n current quality).calls.filter Call.isEncode).length = n := by
  intro n
  induction n with
  | zero => intro current quality _; simp [compressLoop]
  | succ n ih =>
    intro current quality h
    obtain ⟨out, hout, hbig⟩ := h current quality (compressLoop_first_call C n current quality)
    have hnle : ¬ out.length ≤ maxImageSize := Nat.not_le.mpr hbig
    unfold compressLoop at h ⊢
    rw [hout] at h ⊢
    simp only [hnle, if_false] at h ⊢
    have ih' := ih _ _ (fun im q hm => h im q (by
      simp only [List.mem_cons]
      exact Or.inr (Or.inr hm)))
    refine ⟨ih'.1, ih'.2.1, ?_⟩
    simp only [List.filter_cons, Call.isEncode, if_true, List.length_cons]
    simpa using ih'.2.2

/-- C3: for an input of more than 8 MiB that decodes, if every JPEG encoding
produced in the loop has more than 8 MiB, then `CompressToLimit` makes exactly 3
encode calls, returns a nil byte slice and `ErrCompressLimit`, and
`PrepareImageForOCR` returns a nil result with error code 2. -/
theorem C3_three_attempts_then_limit_error {Img : Type} (C : Codec Img) (src : Bytes)
    (img : Img) (hlen : 8 * 1024 * 1024 < src.length) (hdec : C.decode src = .ok img)
    (henc : ∀ im q, Call.encode im q ∈ (CompressToLimit C src).calls →
      ∃ out, C.encode im q = .ok out ∧ 8 * 1024 * 1024 < out.length) :
    ((CompressToLimit C src).calls.filter Call.isEncode).length = 3 ∧
    (CompressToLimit C src).data = none ∧
    (CompressToLimit C src).err = some .ErrCompressLimit ∧
    ∀ b64, C.b64decode b64 = some src →
      (PrepareImageForOCR C b64).result = none ∧
      (PrepareImageForOCR C b64).code = 2 ∧
      (PrepareImageForOCR C b64).err = some .ErrCompressLimit := by
  have hnle : ¬ src.length ≤ maxImageSize := Nat.not_le.mpr hlen
  have hloop := compressLoop_all_oversize C maxCompressTimes img 90 (fun im q hm =>
    henc im q (by
      unfold CompressToLimit
      simp only [hnle, if_false, hdec, List.mem_cons]
      exact Or.inr hm))
  have hC : (CompressToLimit C src).data = none ∧
      (CompressToLimit C src).err = some .ErrCompressLimit := by
    unfold CompressToLimit
    simp only [hnle, if_false, hdec]
    exact ⟨hloop.1, hloop.2.1⟩
  refine ⟨?_, hC.1, hC.2, ?_⟩
  · unfold CompressToLimit
    simp only [hnle, if_false, hdec, List.filter_cons, Call.isDecode, Call.isEncode]
    simpa [maxCompressTimes] using hloop.2.2
  · intro b64 hb
    have hnle' : ¬ src.length ≤ 8 * 1024 * 1024 := hnle
    simp [PrepareImageForOCR, DecodeBase64Image, hb, hnle', hC.2]

/-- C3 on an input of 8388609 bytes, every JPEG encoding of which has 9000000
bytes. -/
theorem C3_three_attempts_then_limit_error_witness :
    ((CompressToLimit (stubCodec true 9000000) (zeros 8388609)).calls.filter
      Call.isEncode).length = 3 ∧
    (CompressToLimit (stubCodec true 9000000) (zeros 8388609)).data = none ∧
    (CompressToLimit (stubCodec true 9000000) (zeros 8388609)).err
      = some .ErrCompressLimit ∧
    (PrepareImageForOCR (stubCodec true 9000000) "big").code = 2 :=
  have h := C3_three_attempts_then_limit_error (stubCodec true 9000000)
    (zeros 8388609) (4000, 3000)
    (by rw [zeros_length]; norm_num) rfl
    (fun _ _ _ => ⟨zeros 9000000, rfl, by rw [zeros_length]; norm_num⟩)
  ⟨h.1, h.2.1, h.2.2.1, (h.2.2.2 "big" (by simp [stubCodec])).2.1⟩

/-- An oversize payload that the image decoder rejects: what `CompressToLimit`
and `PrepareImageForOCR` return. -/
theorem image_decode_error {Img : Type} (C : Codec Img) (b64 : String) (raw : Bytes)
    (e : String) (hb : C.b64decode b64 = some raw) (hlen : 8 * 1024 * 1024 < raw.length)
    (hdec : C.decode raw = .error e) :
    (CompressToLimit C raw).data = none ∧
    (CompressToLimit C raw).err = some (.lib e) ∧
    (CompressToLimit C raw).calls = [.decode raw] ∧
    (PrepareImageForOCR C b64).result = none ∧
    (PrepareImageForOCR C b64).code = 5 ∧
    (PrepareImageForOCR C b64).err = some (.lib e) ∧
    (PrepareImageForOCR C b64).calls = [.decode raw] := by
  have hnle : ¬ raw.length ≤ maxImageSize := Nat.not_le.mpr hlen
  have hnle' : ¬ raw.length ≤ 8 * 1024 * 1024 := hnle
  simp [PrepareImageForOCR, DecodeBase64Image, hb, CompressToLimit, hnle, hnle', hdec]

/-- A payload of at most 8 MiB: what `PrepareImageForOCR` returns. -/
theorem small_payload_accepted {Img : Type} (C : Codec Img) (b64 : String) (raw : Bytes)
    (hb : C.b64decode b64 = some raw) (hlen : raw.length ≤ 8 * 1024 * 1024) :
    (PrepareImageForOCR C b64).result = some ⟨b64, raw.length, raw.length⟩ ∧
    (PrepareImageForOCR C b64).code = 0 ∧
    (PrepareImageForOCR C b64).err = none ∧
    (PrepareImageForOCR C b64).calls = [] := by
  simp [PrepareImageForOCR, DecodeBase64Image, hb, hlen]

/-- C4, as stated, fails: a payload of 8388609 bytes that is valid base64 but
that the image decoder rejects is answered with error code 5 and the decoder's
own error, not with code 1; and a payload of three bytes that the image decoder
would reject is accepted with code 0, because it is never decoded. -/
theorem C4_undecodable_image_not_code_1 :
    (stubCodec false 0).b64decode "big" = some (zeros 8388609) ∧
    (stubCodec false 0).decode (zeros 8388609) = .error "image: unknown format" ∧
    (PrepareImageForOCR (stubCodec false 0) "big").code = 5 ∧
    (PrepareImageForOCR (stubCodec false 0) "big").err
      = some (.lib "image: unknown format") ∧
    (stubCodec false 0).b64decode "small" = some [1, 2, 3] ∧
    (stubCodec false 0).decode [1, 2, 3] = .error "image: unknown format" ∧
    (PrepareImageForOCR (stubCodec false 0) "small").code = 0 ∧
    (PrepareImageForOCR (stubCodec false 0) "small").err = none := by
  have hb : (stubCodec false 0).b64decode "big" = some (zeros 8388609) := by
    simp [stubCodec]
  have hd : (stubCodec false 0).decode (zeros 8388609) = .error "image: unknown format" := by
    simp [stubCodec]
  have hs : (stubCodec false 0).b64decode "small" = some [1, 2, 3] := by
    simp [stubCodec]
  have hbig := image_decode_error (stubCodec false 0) "big" (zeros 8388609)
    "image: unknown format" hb (by rw [zeros_length]; norm_num) hd
  have hsmall := small_payload_accepted (stubCodec false 0) "small" [1, 2, 3] hs (by simp)
  exact ⟨hb, hd, hbig.2.2.2.2.1, hbig.2.2.2.2.2.1, hs, by simp [stubCodec],
    hsmall.2.1, hsmall.2.2.1⟩

/-- C4, amended: a request text that is not base64 fails with error code 1 and
`ErrDecodeBase64`, before any library call on the image. A payload of more than
8 MiB that the image decoder rejects makes `CompressToLimit` return a nil slice
with the decoder's error after the single decode call, so before any JPEG
encode, and `PrepareImageForOCR` reports it with the generic code 5, which is
neither 1 nor 2. A payload of at most 8 MiB is accepted with code 0 without any
call to the image decoder, whether or not it would decode. -/
theorem C4_decode_failures {Img : Type} (C : Codec Img) :
    (∀ b64, C.b64decode b64 = none →
      (PrepareImageForOCR C b64).result = none ∧
      (PrepareImageForOCR C b64).code = 1 ∧
      (PrepareImageForOCR C b64).err = some .ErrDecodeBase64 ∧
      (PrepareImageForOCR C b64).calls = []) ∧
    (∀ b64 raw e, C.b64decode b64 = some raw → 8 * 1024 * 1024 < raw.length →
      C.decode raw = .error e →
      (CompressToLimit C raw).data = none ∧
      (CompressToLimit C raw).err = some (.lib e) ∧
      (CompressToLimit C raw).calls = [.decode raw] ∧
      (PrepareImageForOCR C b64).result = none ∧
      (PrepareImageForOCR C b64).code = 5 ∧
      (PrepareImageForOCR C b64).err = some (.lib e) ∧
      (PrepareImageForOCR C b64).calls = [.decode raw]) ∧
    (∀ b64 raw, C.b64decode b64 = some raw → raw.length ≤ 8 * 1024 * 1024 →
      (PrepareImageForOCR C b64).code = 0 ∧
      (PrepareImageForOCR C b64).err = none ∧
      (PrepareImageForOCR C b64).calls = []) := by
  refine ⟨?_, ?_, ?_⟩
  · intro b64 hb
    simp [PrepareImageForOCR, DecodeBase64Image, hb]
  · intro b64 raw e hb hlen hdec
    exact image_decode_error C b64 raw e hb hlen hdec
  · intro b64 raw hb hlen
    exact (small_payload_accepted C b64 raw hb hlen).2

/-- C4, amended, on the text `"bad"` and on the payload of 8388609 bytes that the
decoder rejects. -/
theorem C4_decode_failures_witness :
    (PrepareImageForOCR (stubCodec false 0) "bad").code = 1 ∧
    (PrepareImageForOCR (stubCodec false 0) "big").code = 5 ∧
    (CompressToLimit (stubCodec false 0) (zeros 8388609)).err
      = some (.lib "image: unknown format") :=
  have h := C4_decode_failures (stubCodec false 0)
  have h2 := h.2.1 "big" (zeros 8388609) "image: unknown format" (by simp [stubCodec])
    (by rw [zeros_length]; norm_num) (by simp [stubCodec])
  ⟨(h.1 "bad" (by simp [stubCodec])).2.1, h2.2.2.2.2.1, h2.2.1⟩

/-! ## Theorems: quota -/

/-- With a primary key on `id`, the lookup of a user finds the row with that
id. -/
theorem find_user_of_mem (users : List UserRow) (u : UserRow)
    (hnd : (users.map (fun r => r.id)).Nodup) (hu : u ∈ users) :
    users.find? (fun r => r.id = u.id) = some u := by
  induction users with
  | nil => cases hu
  | cons a rest ih =>
    simp only [List.map_cons, List.nodup_cons] at hnd
    rcases List.mem_cons.mp hu with h | h
    · subst h; simp
    · have hne : a.id ≠ u.id := by
        intro heq
        exact hnd.1 (heq ▸ List.mem_map_of_mem (fun r => r.id) h)
      simp [List.find?_cons, hne, ih hnd.2 h]

/-- Without a row of that id, the lookup of a user finds nothing. -/
theorem find_user_of_absent (users : List UserRow) (uid : Int)
    (h : ∀ u ∈ users, u.id ≠ uid) :
    users.find? (fun r => r.id = uid) = none := by
  simp only [List.find?_eq_none, decide_eq_true_eq]
  exact h

/-- The limit returned by `GetUserDailyLimit` is at least 1. -/
theorem GetUserDailyLimit_pos (db : Db) (F : Faults) (uid : Int) :
    1 ≤ (GetUserDailyLimit db F uid).1 := by
  unfold GetUserDailyLimit
  cases selectDailyLimit db F uid with
  | error err => by_cases h : err = GoError.ErrNoRows <;> simp [h, maxDailyOCRRequests]
  | ok limit =>
    by_cases h : limit ≤ 0
    · simp [h, maxDailyOCRRequests]
    · simp only [h, if_false]; omega

/-- C10: when the user's row holds a `daily_limit` above 0, `GetUserDailyLimit`
returns it; when the row is absent, or holds NULL, or holds a value of at most
0, it returns the default `maxDailyOCRRequests`, which is 3, with a nil error;
and in every case, a failing query included, the returned limit is at least
1. -/
theorem C10_daily_limit_or_default (db : Db) (F : Faults) (uid : Int) :
    (F.limitQuery = none → (db.users.map (fun r => r.id)).Nodup →
      ∀ u ∈ db.users, u.id = uid →
        (∀ v, u.daily_limit = some v → 0 < v → GetUserDailyLimit db F uid = (v, none)) ∧
        (u.daily_limit = none →
          GetUserDailyLimit db F uid = (maxDailyOCRRequests, none)) ∧
        (∀ v, u.daily_limit = some v → v ≤ 0 →
          GetUserDailyLimit db F uid = (maxDailyOCRRequests, none))) ∧
    (F.limitQuery = none → (∀ u ∈ db.users, u.id ≠ uid) →
      GetUserDailyLimit db F uid = (maxDailyOCRRequests, none)) ∧
    maxDailyOCRRequests = 3 ∧
    1 ≤ (GetUserDailyLimit db F uid).1 := by
  refine ⟨?_, ?_, rfl, GetUserDailyLimit_pos db F uid⟩
  · intro hF hnd u hu hid
    have hfind := find_user_of_mem db.users u hnd hu
    rw [hid] at hfind
    refine ⟨?_, ?_, ?_⟩
    · intro v hv hpos
      have hnot : ¬ v ≤ 0 := not_le.mpr hpos
      simp [GetUserDailyLimit, selectDailyLimit, hF, hfind, hv, hnot]
    · intro hv
      simp [GetUserDailyLimit, selectDailyLimit, hF, hfind, hv, maxDailyOCRRequests]
    · intro v hv hle
      simp [GetUserDailyLimit, selectDailyLimit, hF, hfind, hv, hle]
  · intro hF habs
    have hfind := find_user_of_absent db.users uid habs
    simp [GetUserDailyLimit, selectDailyLimit, hF, hfind]

/-- C10 on `sampleDb`: user 1 has the stored limit 3, user 2 has no row. -/
theorem C10_daily_limit_or_default_witness :
    GetUserDailyLimit sampleDb Faults.ok 1 = (3, none) ∧
    GetUserDailyLimit sampleDb Faults.ok 2 = (maxDailyOCRRequests, none) :=
  ⟨((C10_daily_limit_or_default sampleDb Faults.ok 1).1 rfl (by decide)
      ⟨1, "alice", "hash", some 3, 0⟩ (by simp [sampleDb]) rfl).1 3 rfl (by decide),
    (C10_daily_limit_or_default sampleDb Faults.ok 2).2.1 rfl (by simp [sampleDb])⟩

/-- The number counted by `selectCountToday` when the query does not fail. -/
theorem selectCountToday_ok (db : Db) (F : Faults) (uid : Int) (today : String)
    (hF : F.countQuery = none) :
    selectCountToday db F uid today = .ok ((db.ocr_rate_limits.countP
      (fun row => decide (row.user_id = uid ∧ row.date = today)) : Nat) : Int) := by
  simp only [selectCountToday, hF, List.countP_eq_length_filter]
  congr 4
  funext row
  simp [Bool.decide_and]

/-- Go `CheckOCRRateLimit` leaves the database as it found it. -/
theorem CheckOCRRateLimit_db (db : Db) (F : Faults) (today : String) (uid : Int)
    (ip : String) : (CheckOCRRateLimit db F today uid ip).2 = db := by
  unfold CheckOCRRateLimit
  split
  · rfl
  · simp only
    split_ifs <;> rfl

/-- Go `CheckOCRRateLimit` reports the limit that `GetUserDailyLimit` returns. -/
theorem CheckOCRRateLimit_limit (db : Db) (F : Faults) (today : String) (uid : Int)
    (ip : String) :
    (CheckOCRRateLimit db F today uid ip).1.limit = (GetUserDailyLimit db F uid).1 := by
  unfold CheckOCRRateLimit
  split
  · next limit err h => rw [h]
  · next limit h =>
    rw [h]
    simp only
    split_ifs <;> rfl

/-- What `CheckOCRRateLimit` returns when neither of its queries fails. -/
theorem CheckOCRRateLimit_no_fault (db : Db) (F : Faults) (today : String) (uid : Int)
    (ip : String) (hl : F.limitQuery = none) (hc : F.countQuery = none) :
    (CheckOCRRateLimit db F today uid ip).1 =
      (let count : Int := ((db.ocr_rate_limits.countP
          (fun row => decide (row.user_id = uid ∧ row.date = today)) : Nat) : Int)
       let limit := (GetUserDailyLimit db F uid).1
       if count ≥ limit then
         ⟨false, count, limit,
           some (.errorf ("今日识别次数已达上限（" ++ toString limit ++ "次/天），请明天再试"))⟩
       else ⟨true, count, limit, none⟩) := by
  have hnone : (GetUserDailyLimit db F uid).2 = none := by
    unfold GetUserDailyLimit selectDailyLimit
    rw [hl]
    cases db.users.find? (fun u => u.id = uid) with
    | none => simp
    | some u =>
      obtain ⟨_, _, _, dl, _⟩ := u
      cases dl with
      | none => simp only; split_ifs <;> rfl
      | some v => simp only; split_ifs <;> rfl
  unfold CheckOCRRateLimit
  split
  · next limit err h => rw [h] at hnone; simp at hnone
  · next limit h =>
    rw [selectCountToday_ok db F uid today hc, h]
    simp only [ne_eq, not_true_eq_false, false_and, if_false]
    split_ifs <;> rfl

/-- C5: when neither query of `CheckOCRRateLimit` fails, `used` is the number of
`ocr_rate_limits` rows of the user dated today, `limit` is what
`GetUserDailyLimit` returns, `allowed` holds exactly when `used < limit`, the
error is nil exactly when `allowed` holds, and the database is left as it
was. -/
theorem C5_check_counts_todays_rows (db : Db) (F : Faults) (today : String) (uid : Int)
    (ip : String) (hl : F.limitQuery = none) (hc : F.countQuery = none) :
    (CheckOCRRateLimit db F today uid ip).1.used =
      ((db.ocr_rate_limits.countP
        (fun row => decide (row.user_id = uid ∧ row.date = today)) : Nat) : Int) ∧
    (CheckOCRRateLimit db F today uid ip).1.limit = (GetUserDailyLimit db F uid).1 ∧
    ((CheckOCRRateLimit db F today uid ip).1.allowed = true ↔
      (CheckOCRRateLimit db F today uid ip).1.used <
        (CheckOCRRateLimit db F today uid ip).1.limit) ∧
    ((CheckOCRRateLimit db F today uid ip).1.err = none ↔
      (CheckOCRRateLimit db F today uid ip).1.allowed = true) ∧
    (CheckOCRRateLimit db F today uid ip).2 = db := by
  refine ⟨?_, CheckOCRRateLimit_limit db F today uid ip, ?_, ?_,
    CheckOCRRateLimit_db db F today uid ip⟩
  · rw [CheckOCRRateLimit_no_fault db F today uid ip hl hc]
    simp only
    split_ifs <;> rfl
  · rw [CheckOCRRateLimit_no_fault db F today uid ip hl hc]
    simp only
    split_ifs with h
    · simp only [Bool.false_eq_true, false_iff, not_lt]
      exact h
    · simp only [true_iff]
      exact lt_of_not_ge h
  · rw [CheckOCRRateLimit_no_fault db F today uid ip hl hc]
    simp only
    split_ifs with h <;> simp

/-- C5 on `sampleDbUsed`: three rows today against a limit of 3. -/
theorem C5_check_counts_todays_rows_witness :
    (CheckOCRRateLimit sampleDbUsed Faults.ok sampleDay 1 "10.0.0.1").1.used =
      ((sampleDbUsed.ocr_rate_limits.countP
        (fun row => decide (row.user_id = 1 ∧ row.date = sampleDay)) : Nat) : Int) ∧
    (CheckOCRRateLimit sampleDbUsed Faults.ok sampleDay 1 "10.0.0.1").2 = sampleDbUsed :=
  have h := C5_check_counts_todays_rows sampleDbUsed Faults.ok sampleDay 1 "10.0.0.1" rfl rfl
  ⟨h.1, h.2.2.2.2⟩

/-- C6, as stated, fails: after three recorded calls and a lowering of the
user's daily limit from 3 to 1 by `UpdateUserDailyLimit`, `CheckOCRRateLimit`
reports `used = 3` against `limit = 1`. -/
theorem C6_used_above_limit_after_lowering :
    (GetUserDailyLimit sampleDbUsed Faults.ok 1).1 = 3 ∧
    (UpdateUserDailyLimit sampleDbUsed Faults.ok 1 1).1 = none ∧
    (CheckOCRRateLimit sampleDbLowered Faults.ok sampleDay 1 "10.0.0.1").1.used = 3 ∧
    (CheckOCRRateLimit sampleDbLowered Faults.ok sampleDay 1 "10.0.0.1").1.limit = 1 ∧
    (CheckOCRRateLimit sampleDbLowered Faults.ok sampleDay 1 "10.0.0.1").1.used >
      (CheckOCRRateLimit sampleDbLowered Faults.ok sampleDay 1 "10.0.0.1").1.limit := by
  decide

/-- C6, amended: in every state of the tables and whatever statement fails,
`CheckOCRRateLimit` admits only with `used < limit`, and it refuses admission
whenever `used` equals `limit` and whenever `used` exceeds `limit`. -/
theorem C6_admission_only_below_limit (db : Db) (F : Faults) (today : String) (uid : Int)
    (ip : String) :
    ((CheckOCRRateLimit db F today uid ip).1.allowed = true →
      (CheckOCRRateLimit db F today uid ip).1.used <
        (CheckOCRRateLimit db F today uid ip).1.limit) ∧
    ((CheckOCRRateLimit db F today uid ip).1.used =
        (CheckOCRRateLimit db F today uid ip).1.limit →
      (CheckOCRRateLimit db F today uid ip).1.allowed = false) ∧
    ((CheckOCRRateLimit db F today uid ip).1.used >
        (CheckOCRRateLimit db F today uid ip).1.limit →
      (CheckOCRRateLimit db F today uid ip).1.allowed = false) := by
  unfold CheckOCRRateLimit
  split
  · simp
  · simp only
    split_ifs with h1 h2
    · simp
    · simp
    · have h3 := lt_of_not_ge h2
      refine ⟨fun _ => h3, fun h => ?_, fun h => ?_⟩
      · exact absurd h (ne_of_lt h3)
      · exact absurd h (not_lt.mpr (le_of_lt h3))

/-- C6, amended, on `sampleDb` (nothing used, admitted) and on `sampleDbLowered`
(three used against a limit of 1, refused). -/
theorem C6_admission_only_below_limit_witness :
    (CheckOCRRateLimit sampleDb Faults.ok sampleDay 1 "10.0.0.1").1.used <
      (CheckOCRRateLimit sampleDb Faults.ok sampleDay 1 "10.0.0.1").1.limit ∧
    (CheckOCRRateLimit sampleDbLowered Faults.ok sampleDay 1 "10.0.0.1").1.allowed = false :=
  ⟨(C6_admission_only_below_limit sampleDb Faults.ok sampleDay 1 "10.0.0.1").1 (by decide),
    (C6_admission_only_below_limit sampleDbLowered Faults.ok sampleDay 1 "10.0.0.1").2.2
      (by decide)⟩

/-- Whenever `CheckOCRRateLimit` returns an error, of whatever kind, it returns
`allowed = false`. -/
theorem CheckOCRRateLimit_err_refused (db : Db) (F : Faults) (today : String) (uid : Int)
    (ip : String) (h : (CheckOCRRateLimit db F today uid ip).1.err ≠ none) :
    (CheckOCRRateLimit db F today uid ip).1.allowed = false := by
  revert h
  unfold CheckOCRRateLimit
  split
  · intro _; rfl
  · simp only
    split_ifs with h1 h2
    · intro _; rfl
    · intro _; rfl
    · intro h; exact absurd rfl h

/-- In `OCRHandler`, every error returned by the quota check, a storage error
included, is answered with 429 and errcode 6: the branch that answers 500 is
never taken. -/
theorem OCRHandler_check_storage_error {Img : Type} (C : Codec Img) (db : Db)
    (req : Request) (uid : Int) (e : GoError) (hu : req.userID = some (.int64 uid))
    (he : (CheckOCRRateLimit db req.faults req.dayAtCheck uid (requestIP req)).1.err
      = some e) :
    (OCRHandler C db req).1.status = 429 ∧ (OCRHandler C db req).1.errcode = 6 := by
  have ha := CheckOCRRateLimit_err_refused db req.faults req.dayAtCheck uid (requestIP req)
    (by rw [he]; simp)
  unfold OCRHandler
  simp only [hu, he, ha]
  simp

/-- C9 fails on the code: with the `COUNT(*)` query of the quota check failing
("database is locked"), and likewise with the `daily_limit` query failing,
`CheckOCRRateLimit` returns the storage error with `allowed = false`, and
`OCRHandler` answers 429 with errcode 6, `used = 0` and `limit = 3`, the shape of
the quota-exceeded response, although the user has no row today; it does not
answer 500 with errcode 5. -/
theorem C9_storage_error_answered_429 :
    (CheckOCRRateLimit sampleDb sampleRequestCountFails.faults sampleDay 1 "10.0.0.1").1
      = ⟨false, 0, 3, some (.lib "database is locked")⟩ ∧
    (OCRHandler (stubCodec true 1000) sampleDb sampleRequestCountFails).1
      = { status := 429, errcode := 6, msg := "database is locked",
          used := some 0, limit := some 3 } ∧
    (OCRHandler (stubCodec true 1000) sampleDb sampleRequestLimitFails).1
      = { status := 429, errcode := 6, msg := "database is locked",
          used := some 0, limit := some 3 } ∧
    sampleDb.ocr_rate_limits = [] := by
  decide

/-! ## Theorems: the handler and the quota rows -/

/-- Go `SaveOCRRecord` touches neither `users`, nor `config`, nor
`ocr_rate_limits`. -/
theorem SaveOCRRecord_frame (db : Db) (F : Faults) (now : Int) (uid : Int) (text : String) :
    (SaveOCRRecord db F now uid text).2.users = db.users ∧
    (SaveOCRRecord db F now uid text).2.config = db.config ∧
    (SaveOCRRecord db F now uid text).2.ocr_rate_limits = db.ocr_rate_limits := by
  unfold SaveOCRRecord
  split_ifs
  · exact ⟨rfl, rfl, rfl⟩
  · split
    · exact ⟨rfl, rfl, rfl⟩
    · exact ⟨rfl, rfl, rfl⟩

/-- Go `RecordOCRRequest` touches neither `users` nor `config`; it appends one row
for the user and the day, unless the insert fails. -/
theorem RecordOCRRequest_frame (db : Db) (F : Faults) (today : String) (now : Int)
    (uid : Int) (ip : String) :
    (RecordOCRRequest db F today now uid ip).2.users = db.users ∧
    (RecordOCRRequest db F today now uid ip).2.config = db.config ∧
    ((RecordOCRRequest db F today now uid ip).2.ocr_rate_limits = db.ocr_rate_limits ∨
      ∃ row : RateLimitRow, row.user_id = uid ∧ row.date = today ∧
        (RecordOCRRequest db F today now uid ip).2.ocr_rate_limits
          = db.ocr_rate_limits ++ [row]) := by
  unfold RecordOCRRequest
  split
  · exact ⟨rfl, rfl, Or.inl rfl⟩
  · exact ⟨rfl, rfl, Or.inr ⟨_, rfl, rfl, rfl⟩⟩

/-- When the insert does not fail, `RecordOCRRequest` appends one row for the
user and the day. -/
theorem RecordOCRRequest_appends (db : Db) (F : Faults) (today : String) (now : Int)
    (uid : Int) (ip : String) (hF : F.rateInsert = none) :
    ∃ row : RateLimitRow, row.user_id = uid ∧ row.date = today ∧
      (RecordOCRRequest db F today now uid ip).2.ocr_rate_limits
        = db.ocr_rate_limits ++ [row] := by
  unfold RecordOCRRequest
  rw [hF]
  exact ⟨_, rfl, rfl, rfl⟩

/-- The two bookkeeping writes touch neither `users` nor `config`, and leave in
`ocr_rate_limits` what `RecordOCRRequest` left. -/
theorem recordSuccess_frame (db : Db) (req : Request) (uid : Int) (ip : String)
    (text : String) :
    (recordSuccess db req uid ip text).users = db.users ∧
    (recordSuccess db req uid ip text).config = db.config ∧
    (recordSuccess db req uid ip text).ocr_rate_limits =
      (RecordOCRRequest db req.faults req.dayAtRecord req.nowAtRecord uid ip).2.ocr_rate_limits := by
  unfold recordSuccess
  have h1 := SaveOCRRecord_frame
    (RecordOCRRequest db req.faults req.dayAtRecord req.nowAtRecord uid ip).2
    req.faults req.nowAtSave uid text
  have h2 := RecordOCRRequest_frame db req.faults req.dayAtRecord req.nowAtRecord uid ip
  exact ⟨h1.1.trans h2.1, h1.2.1.trans h2.2.1, h1.2.2⟩

/-- Go `GetUserDailyLimit` reads the table `users` only. -/
theorem GetUserDailyLimit_congr (db db' : Db) (F : Faults) (uid : Int)
    (h : db'.users = db.users) :
    GetUserDailyLimit db' F uid = GetUserDailyLimit db F uid := by
  simp only [GetUserDailyLimit, selectDailyLimit, h]

/-- Go `CallOCREngine` reads the table `config` only. -/
theorem CallOCREngine_congr (db db' : Db) (F : Faults) (env : OsEnv)
    (http : OCREngineConfig → String → HttpOutcome) (img : String)
    (h : db'.config = db.config) :
    CallOCREngine db' F env http img = CallOCREngine db F env http img := by
  simp only [CallOCREngine, GetOCREngineConfig, h]

/-- A nil error from `CallOCREngine` comes with `ErrCode = 0`. -/
theorem CallOCREngine_ok_errcode (db : Db) (F : Faults) (env : OsEnv)
    (http : OCREngineConfig → String → HttpOutcome) (img : String) (result : OCRResult)
    (h : CallOCREngine db F env http img = (result, none)) : result.ErrCode = 0 := by
  unfold CallOCREngine at h
  simp only at h
  split at h
  · simp at h
  · simp at h
  · simp at h
  · split_ifs at h with hs
    · simp at h
    · split at h
      · simp at h
      · split_ifs at h with he
        · simp at h
        · simp only [Prod.mk.injEq, and_true] at h
          rw [← h]

/-- A nil error from `CheckOCRRateLimit`: neither query failed and the user's
rows of the day are fewer than the limit read. -/
theorem CheckOCRRateLimit_admitted (db : Db) (F : Faults) (today : String) (uid : Int)
    (ip : String) (h : (CheckOCRRateLimit db F today uid ip).1.err = none) :
    F.limitQuery = none ∧ F.countQuery = none ∧
    (quotaCount db uid today : Int) < (GetUserDailyLimit db F uid).1 := by
  have hl : F.limitQuery = none := by
    by_contra hne
    obtain ⟨msg, hmsg⟩ := Option.ne_none_iff_exists'.mp hne
    simp [CheckOCRRateLimit, GetUserDailyLimit, selectDailyLimit, hmsg] at h
  have hc : F.countQuery = none := by
    by_contra hne
    obtain ⟨msg, hmsg⟩ := Option.ne_none_iff_exists'.mp hne
    revert h
    unfold CheckOCRRateLimit
    split
    · simp
    · simp [selectCountToday, hmsg]
  refine ⟨hl, hc, ?_⟩
  rw [CheckOCRRateLimit_no_fault db F today uid ip hl hc] at h
  simp only at h
  split_ifs at h with hge
  exact lt_of_not_ge hge

/-- Fewer rows of the day than the limit, and no failing query: the check
returns a nil error. -/
theorem CheckOCRRateLimit_below (db : Db) (F : Faults) (today : String) (uid : Int)
    (ip : String) (hl : F.limitQuery = none) (hc : F.countQuery = none)
    (hlt : (quotaCount db uid today : Int) < (GetUserDailyLimit db F uid).1) :
    (CheckOCRRateLimit db F today uid ip).1.err = none := by
  rw [CheckOCRRateLimit_no_fault db F today uid ip hl hc]
  have hnot : ¬ ((quotaCount db uid today : Int) ≥ (GetUserDailyLimit db F uid).1) :=
    not_le.mpr hlt
  unfold quotaCount at hnot
  simp only [hnot, if_false]

/-- The success path of `OCRHandler`. -/
theorem OCRHandler_success {Img : Type} (C : Codec Img) (db : Db) (req : Request)
    (uid : Int) (image : String) (comp : CompressResult) (result : OCRResult)
    (hu : req.userID = some (.int64 uid))
    (hchk : (CheckOCRRateLimit db req.faults req.dayAtCheck uid (requestIP req)).1.err = none)
    (hbind : bindOCRRequest req.image = some image)
    (herr : (PrepareImageForOCR C image).err = none)
    (hres : (PrepareImageForOCR C image).result = some comp)
    (heng : CallOCREngine db req.faults req.env req.http comp.Base64 = (result, none)) :
    OCRHandler C db req =
      (successResponse result, recordSuccess db req uid (requestIP req) result.Text) := by
  unfold OCRHandler
  simp only [hu, hchk, hbind, herr, hres, CheckOCRRateLimit_db, heng]

/-- Every run of `OCRHandler` either leaves the database as it was, or went
through the success path after a quota check that returned a nil error. -/
theorem OCRHandler_cases {Img : Type} (C : Codec Img) (db : Db) (req : Request) :
    (OCRHandler C db req).2 = db ∨
    ∃ uid text, req.userID = some (.int64 uid) ∧
      (CheckOCRRateLimit db req.faults req.dayAtCheck uid (requestIP req)).1.err = none ∧
      (OCRHandler C db req).2 = recordSuccess db req uid (requestIP req) text := by
  unfold OCRHandler
  split
  · exact Or.inl rfl
  · exact Or.inl rfl
  · next uid hu =>
    simp only [CheckOCRRateLimit_db]
    split
    · split_ifs <;> exact Or.inl rfl
    · next hchk =>
      split
      · exact Or.inl rfl
      · split
        · split_ifs <;> exact Or.inl rfl
        · exact Or.inl rfl
        · split
          · exact Or.inl rfl
          · next result _ => exact Or.inr ⟨uid, result.Text, hu, hchk, rfl⟩

/-- The count `quotaCount` after one more row of the user and the day. -/
theorem quotaCount_append (db db' : Db) (uid : Int) (day : String) (row : RateLimitRow)
    (hu : row.user_id = uid) (hd : row.date = day)
    (h : db'.ocr_rate_limits = db.ocr_rate_limits ++ [row]) :
    quotaCount db' uid day = quotaCount db uid day + 1 := by
  unfold quotaCount
  rw [h, List.countP_append]
  simp [hu, hd]

/-- Go `GetUserDailyLimit` depends on the failing statements through the
`daily_limit` query only. -/
theorem GetUserDailyLimit_faults (db : Db) (F : Faults) (uid : Int)
    (h : F.limitQuery = none) :
    GetUserDailyLimit db F uid = GetUserDailyLimit db Faults.ok uid := by
  simp only [GetUserDailyLimit, selectDailyLimit, h, Faults.ok]

/-- One request: either no quota row is inserted, or exactly one is, for the
request's user and day, and the user's rows of that day are then at most the
limit read by the request. -/
theorem OCRHandler_insertion_within_limit {Img : Type} (C : Codec Img) (db : Db)
    (req : Request) (hday : req.dayAtCheck = req.dayAtRecord) :
    (OCRHandler C db req).2.ocr_rate_limits = db.ocr_rate_limits ∨
    ∃ uid row, req.userID = some (.int64 uid) ∧ row.user_id = uid ∧
      row.date = req.dayAtRecord ∧
      (OCRHandler C db req).2.ocr_rate_limits = db.ocr_rate_limits ++ [row] ∧
      (quotaCount (OCRHandler C db req).2 uid req.dayAtRecord : Int) ≤
        (CheckOCRRateLimit db req.faults req.dayAtCheck uid (requestIP req)).1.limit := by
  rcases OCRHandler_cases C db req with h | ⟨uid, text, hu, hchk, hdb⟩
  · exact Or.inl (by rw [h])
  · have hfr := recordSuccess_frame db req uid (requestIP req) text
    rcases (RecordOCRRequest_frame db req.faults req.dayAtRecord req.nowAtRecord uid
      (requestIP req)).2.2 with hsame | ⟨row, hru, hrd, happ⟩
    · exact Or.inl (by rw [hdb, hfr.2.2, hsame])
    · have hrows : (OCRHandler C db req).2.ocr_rate_limits = db.ocr_rate_limits ++ [row] := by
        rw [hdb, hfr.2.2, happ]
      have hcount := quotaCount_append db (OCRHandler C db req).2 uid req.dayAtRecord row
        hru hrd hrows
      have hadm := CheckOCRRateLimit_admitted db req.faults req.dayAtCheck uid
        (requestIP req) hchk
      have hlim := CheckOCRRateLimit_limit db req.faults req.dayAtCheck uid (requestIP req)
      refine Or.inr ⟨uid, row, hu, hru, hrd, hrows, ?_⟩
      rw [hcount, hlim]
      have := hadm.2.2
      rw [hday] at this
      push_cast
      omega

/-- C8: in a sequential execution, from any database `db0` and for any list of
requests handled one after another, take the request at any position `k` and
suppose the day it reads at its quota check is the day it reads in
`RecordOCRRequest`. Then, in the database left by the requests before it, this
request either inserts no quota row, or inserts exactly one, for its user and
day, and right after the insertion the number of rows of that user and day is
at most the daily limit that the request read at its check. -/
theorem C8_rows_within_limit_at_insertion {Img : Type} (C : Codec Img) (db0 : Db)
    (reqs : List Request) (k : Nat) (hk : k < reqs.length)
    (hday : (reqs.get ⟨k, hk⟩).dayAtCheck = (reqs.get ⟨k, hk⟩).dayAtRecord) :
    (OCRHandler C (serve C db0 (reqs.take k)).2 (reqs.get ⟨k, hk⟩)).2.ocr_rate_limits
      = (serve C db0 (reqs.take k)).2.ocr_rate_limits ∨
    ∃ uid row, (reqs.get ⟨k, hk⟩).userID = some (.int64 uid) ∧ row.user_id = uid ∧
      row.date = (reqs.get ⟨k, hk⟩).dayAtRecord ∧
      (OCRHandler C (serve C db0 (reqs.take k)).2 (reqs.get ⟨k, hk⟩)).2.ocr_rate_limits
        = (serve C db0 (reqs.take k)).2.ocr_rate_limits ++ [row] ∧
      (quotaCount (OCRHandler C (serve C db0 (reqs.take k)).2 (reqs.get ⟨k, hk⟩)).2 uid
          (reqs.get ⟨k, hk⟩).dayAtRecord : Int) ≤
        (CheckOCRRateLimit (serve C db0 (reqs.take k)).2 (reqs.get ⟨k, hk⟩).faults
          (reqs.get ⟨k, hk⟩).dayAtCheck uid (requestIP (reqs.get ⟨k, hk⟩))).1.limit ∧
      (CheckOCRRateLimit (serve C db0 (reqs.take k)).2 (reqs.get ⟨k, hk⟩).faults
          (reqs.get ⟨k, hk⟩).dayAtCheck uid (requestIP (reqs.get ⟨k, hk⟩))).1.limit
        = (GetUserDailyLimit (serve C db0 (reqs.take k)).2 (reqs.get ⟨k, hk⟩).faults uid).1 := by
  rcases OCRHandler_insertion_within_limit C (serve C db0 (reqs.take k)).2 (reqs.get ⟨k, hk⟩)
    hday with h | ⟨uid, row, hu, hru, hrd, hrows, hle⟩
  · exact Or.inl h
  · exact Or.inr ⟨uid, row, hu, hru, hrd, hrows, hle, CheckOCRRateLimit_limit _ _ _ _ _⟩

/-- C8 on two requests of user 1 against `sampleDb`, at the second request. -/
theorem C8_rows_within_limit_at_insertion_witness :
    (OCRHandler (stubCodec true 1000) (serve (stubCodec true 1000) sampleDb [sampleRequest]).2
        sampleRequest).2.ocr_rate_limits
      = (serve (stubCodec true 1000) sampleDb [sampleRequest]).2.ocr_rate_limits ∨
    ∃ uid row, sampleRequest.userID = some (.int64 uid) ∧ row.user_id = uid ∧
      row.date = sampleRequest.dayAtRecord ∧
      (OCRHandler (stubCodec true 1000) (serve (stubCodec true 1000) sampleDb [sampleRequest]).2
          sampleRequest).2.ocr_rate_limits
        = (serve (stubCodec true 1000) sampleDb [sampleRequest]).2.ocr_rate_limits ++ [row] ∧
      (quotaCount (OCRHandler (stubCodec true 1000)
          (serve (stubCodec true 1000) sampleDb [sampleRequest]).2 sampleRequest).2 uid
          sampleRequest.dayAtRecord : Int) ≤
        (CheckOCRRateLimit (serve (stubCodec true 1000) sampleDb [sampleRequest]).2
          sampleRequest.faults sampleRequest.dayAtCheck uid (requestIP sampleRequest)).1.limit ∧
      (CheckOCRRateLimit (serve (stubCodec true 1000) sampleDb [sampleRequest]).2
          sampleRequest.faults sampleRequest.dayAtCheck uid (requestIP sampleRequest)).1.limit
        = (GetUserDailyLimit (serve (stubCodec true 1000) sampleDb [sampleRequest]).2
            sampleRequest.faults uid).1 :=
  C8_rows_within_limit_at_insertion (stubCodec true 1000) sampleDb
    [sampleRequest, sampleRequest] 1 (by decide) rfl

/-- A request whose quota check finds at least as many rows of the day as the
limit is answered 429 with errcode 6, the count and the limit, and leaves the
database as it was. -/
theorem OCRHandler_refused {Img : Type} (C : Codec Img) (db : Db) (req : Request)
    (uid : Int) (hu : req.userID = some (.int64 uid))
    (hl : req.faults.limitQuery = none) (hc : req.faults.countQuery = none)
    (hge : (quotaCount db uid req.dayAtCheck : Int) ≥ (GetUserDailyLimit db req.faults uid).1) :
    (OCRHandler C db req).1.status = 429 ∧
    (OCRHandler C db req).1.errcode = 6 ∧
    (OCRHandler C db req).1.used = some (quotaCount db uid req.dayAtCheck : Int) ∧
    (OCRHandler C db req).1.limit = some (GetUserDailyLimit db req.faults uid).1 ∧
    (OCRHandler C db req).2 = db := by
  have hchk := CheckOCRRateLimit_no_fault db req.faults req.dayAtCheck uid (requestIP req) hl hc
  unfold quotaCount at hge
  simp only [hge, if_true] at hchk
  unfold OCRHandler
  simp only [hu, hchk, CheckOCRRateLimit_db]
  simp [quotaCount]

/-- Requests of one user on one day, each with a succeeding upstream call and no
failing statement in the quota check and the quota insert, handled one after
another while the rows of the day plus the requests still to come stay within
the limit: every one is answered 200 with errcode 0 and adds one row. -/
theorem serve_admits_all {Img : Type} (C : Codec Img) (db0 : Db) (uid : Int) (today : String) :
    ∀ (reqs : List Request) (db : Db), db.users = db0.users → db.config = db0.config →
      (quotaCount db uid today + reqs.length : Int) ≤ (GetUserDailyLimit db0 Faults.ok uid).1 →
      (∀ r ∈ reqs, r.userID = some (.int64 uid) ∧ r.dayAtCheck = today ∧
        r.dayAtRecord = today ∧ r.faults.limitQuery = none ∧ r.faults.countQuery = none ∧
        r.faults.rateInsert = none ∧ upstreamSucceeds C db0 r) →
      (serve C db reqs).1.length = reqs.length ∧
      (∀ resp ∈ (serve C db reqs).1, resp.status = 200 ∧ resp.errcode = 0) ∧
      (serve C db reqs).2.users = db0.users ∧
      (serve C db reqs).2.config = db0.config ∧
      quotaCount (serve C db reqs).2 uid today = quotaCount db uid today + reqs.length := by
  intro reqs
  induction reqs with
  | nil => intro db hus hcf _ _; simp [serve, hus, hcf]
  | cons r rest ih =>
    intro db hus hcf hle hgood
    obtain ⟨hu, hdc, hdr, hl, hc, hri, image, comp, result, hbind, herr, hres, heng⟩ :=
      hgood r (List.mem_cons_self r rest)
    have hlim : GetUserDailyLimit db r.faults uid = GetUserDailyLimit db0 Faults.ok uid := by
      rw [GetUserDailyLimit_faults db r.faults uid hl]
      exact GetUserDailyLimit_congr db0 db Faults.ok uid hus
    have hlt : (quotaCount db uid r.dayAtCheck : Int) < (GetUserDailyLimit db r.faults uid).1 := by
      rw [hlim, hdc]
      simp only [List.length_cons] at hle
      push_cast at hle
      omega
    have hchk := CheckOCRRateLimit_below db r.faults r.dayAtCheck uid (requestIP r) hl hc hlt
    have heng' : CallOCREngine db r.faults r.env r.http comp.Base64 = (result, none) := by
      rw [CallOCREngine_congr db0 db r.faults r.env r.http comp.Base64 hcf]
      exact heng
    have hstep := OCRHandler_success C db r uid image comp result hu hchk hbind herr hres heng'
    have hfr := recordSuccess_frame db r uid (requestIP r) result.Text
    obtain ⟨row, hru, hrd, happ⟩ := RecordOCRRequest_appends db r.faults r.dayAtRecord
      r.nowAtRecord uid (requestIP r) hri
    have hcount : quotaCount (recordSuccess db r uid (requestIP r) result.Text) uid today
        = quotaCount db uid today + 1 :=
      quotaCount_append db _ uid today row hru (hrd.trans hdr) (hfr.2.2.trans happ)
    have hih := ih (recordSuccess db r uid (requestIP r) result.Text)
      (hfr.1.trans hus) (hfr.2.1.trans hcf)
      (by
        rw [hcount]
        simp only [List.length_cons] at hle
        push_cast at hle ⊢
        omega)
      (fun r' hr' => hgood r' (List.mem_cons_of_mem r hr'))
    have h200 : (successResponse result).status = 200 ∧ (successResponse result).errcode = 0 :=
      ⟨rfl, CallOCREngine_ok_errcode db r.faults r.env r.http comp.Base64 result heng'⟩
    simp only [serve, hstep, List.length_cons, List.mem_cons, forall_eq_or_imp]
    refine ⟨by rw [hih.1], ⟨h200, hih.2.1⟩, hih.2.2.1, hih.2.2.2.1, ?_⟩
    rw [hih.2.2.2.2, hcount]
    omega

/-- C7: a user whose effective daily limit is `L`, the number of requests in
`reqs`, and who has no quota row for `today`; the `L` requests are the user's,
read `today` at the check and at the insert, have a succeeding upstream call,
and none of the statements of the quota check and of the quota insert fails.
Handled one after another, each of the `L` requests is answered 200 with
errcode 0; and a further request of the user on that day, whose quota check
reads the tables without failure, is answered 429 with errcode 6, `used = L`
and `limit = L`. -/
theorem C7_limit_calls_then_refused {Img : Type} (C : Codec Img) (db : Db) (uid : Int)
    (today : String) (reqs : List Request) (last : Request)
    (hlimit : GetUserDailyLimit db Faults.ok uid = ((reqs.length : Int), none))
    (hrows : quotaCount db uid today = 0)
    (hreqs : ∀ r ∈ reqs, r.userID = some (.int64 uid) ∧ r.dayAtCheck = today ∧
      r.dayAtRecord = today ∧ r.faults.limitQuery = none ∧ r.faults.countQuery = none ∧
      r.faults.rateInsert = none ∧ upstreamSucceeds C db r)
    (hlast : last.userID = some (.int64 uid) ∧ last.dayAtCheck = today ∧
      last.faults.limitQuery = none ∧ last.faults.countQuery = none) :
    1 ≤ reqs.length ∧
    (serve C db reqs).1.length = reqs.length ∧
    (∀ resp ∈ (serve C db reqs).1, resp.status = 200 ∧ resp.errcode = 0) ∧
    (OCRHandler C (serve C db reqs).2 last).1.status = 429 ∧
    (OCRHandler C (serve C db reqs).2 last).1.errcode = 6 ∧
    (OCRHandler C (serve C db reqs).2 last).1.used = some (reqs.length : Int) ∧
    (OCRHandler C (serve C db reqs).2 last).1.limit = some (reqs.length : Int) := by
  have hpos : 1 ≤ reqs.length := by
    have h := GetUserDailyLimit_pos db Faults.ok uid
    rw [hlimit] at h
    simp only at h
    exact_mod_cast h
  have hrun := serve_admits_all C db uid today reqs db rfl rfl
    (by rw [hlimit, hrows]; simp) hreqs
  obtain ⟨hu, hd, hl, hc⟩ := hlast
  have hlim : GetUserDailyLimit (serve C db reqs).2 last.faults uid
      = ((reqs.length : Int), none) := by
    rw [GetUserDailyLimit_faults _ last.faults uid hl,
      GetUserDailyLimit_congr db _ Faults.ok uid hrun.2.2.1, hlimit]
  have hcount : quotaCount (serve C db reqs).2 uid last.dayAtCheck = reqs.length := by
    rw [hd, hrun.2.2.2.2, hrows]; simp
  have href := OCRHandler_refused C (serve C db reqs).2 last uid hu hl hc
    (by rw [hlim, hcount])
  rw [hlim, hcount] at href
  exact ⟨hpos, hrun.1, hrun.2.1, href.1, href.2.1, href.2.2.1, href.2.2.2.1⟩

/-- The upstream call of `sampleRequest` succeeds. -/
theorem sampleRequest_upstream : upstreamSucceeds (stubCodec true 1000) sampleDb sampleRequest :=
  ⟨"small", ⟨"small", 3, 3⟩,
    (CallOCREngine sampleDb sampleRequest.faults sampleRequest.env sampleRequest.http "small").1,
    by decide, by decide, by decide, by decide⟩

/-- C7 in the spec's instance: user 1 of `sampleDb` has limit 3 and no row;
three requests are answered 200 and the fourth is answered 429 with errcode 6,
`used = 3` and `limit = 3`. -/
theorem C7_limit_calls_then_refused_witness :
    (∀ resp ∈ (serve (stubCodec true 1000) sampleDb
        [sampleRequest, sampleRequest, sampleRequest]).1,
      resp.status = 200 ∧ resp.errcode = 0) ∧
    (OCRHandler (stubCodec true 1000) (serve (stubCodec true 1000) sampleDb
      [sampleRequest, sampleRequest, sampleRequest]).2 sampleRequest).1.status = 429 ∧
    (OCRHandler (stubCodec true 1000) (serve (stubCodec true 1000) sampleDb
      [sampleRequest, sampleRequest, sampleRequest]).2 sampleRequest).1.errcode = 6 ∧
    (OCRHandler (stubCodec true 1000) (serve (stubCodec true 1000) sampleDb
      [sampleRequest, sampleRequest, sampleRequest]).2 sampleRequest).1.used = some 3 ∧
    (OCRHandler (stubCodec true 1000) (serve (stubCodec true 1000) sampleDb
      [sampleRequest, sampleRequest, sampleRequest]).2 sampleRequest).1.limit = some 3 :=
  have h := C7_limit_calls_then_refused (stubCodec true 1000) sampleDb 1 sampleDay
    [sampleRequest, sampleRequest, sampleRequest] sampleRequest (by decide) (by decide)
    (fun r hr => by
      have hr' : r = sampleRequest := by simpa using hr
      subst hr'
      exact ⟨rfl, rfl, rfl, rfl, rfl, rfl, sampleRequest_upstream⟩)
    ⟨rfl, rfl, rfl, rfl⟩
  ⟨h.2.2.1, h.2.2.2.1, h.2.2.2.2.1, h.2.2.2.2.2.1, h.2.2.2.2.2.2⟩

/-! ## Theorems: the engine call -/

/-- What `mapBoxes` computes: the boxes mapped one by one, and the texts that are
not empty, both in the original order. -/
theorem mapBoxes_eq (bs : List ocrEngineBox) :
    mapBoxes bs = (bs.map toOCRBox,
      (bs.map (fun b => b.Text)).filter (fun t => decide (t ≠ ""))) := by
  induction bs with
  | nil => rfl
  | cons b rest ih =>
    simp only [mapBoxes, ih, List.map_cons, List.filter_cons, toOCRBox]
    by_cases h : b.Text = "" <;> simp [h]

/-- A failed exchange makes `CallOCREngine` return a non-nil error and a result
with `ErrCode = 3`. -/
theorem CallOCREngine_failure (db : Db) (F : Faults) (env : OsEnv)
    (http : OCREngineConfig → String → HttpOutcome) (img : String)
    (h : upstreamFailure (http (GetOCREngineConfig db F env) img) = true) :
    (CallOCREngine db F env http img).2 ≠ none ∧
    (CallOCREngine db F env http img).1.ErrCode = 3 := by
  unfold CallOCREngine
  simp only
  cases hout : http (GetOCREngineConfig db F env) img with
  | newRequestError msg => simp
  | doError msg => simp
  | readError msg => simp
  | response status body =>
    rw [hout] at h
    by_cases hs : status = 200
    · cases body with
      | error msg => simp [hs]
      | ok engineResp =>
        have he : engineResp.ErrCode ≠ 0 := by
          simpa [upstreamFailure, hs] using h
        simp [hs, he]
    · simp [hs]

/-- C14: when the exchange with the engine fails (transport error, status other
than 200, unparsable body, or engine errcode other than 0), `CallOCREngine`
returns a non-nil error and a result with `ErrCode = 3`; and a request that
reaches the engine call is then answered 502 with errcode 3 and leaves the
whole database, `ocr_rate_limits` and `ocr_records` included, as it was. -/
theorem C14_upstream_failure_no_bookkeeping {Img : Type} (C : Codec Img) (db : Db)
    (req : Request) :
    (∀ img, upstreamFailure (req.http (GetOCREngineConfig db req.faults req.env) img) = true →
      (CallOCREngine db req.faults req.env req.http img).2 ≠ none ∧
      (CallOCREngine db req.faults req.env req.http img).1.ErrCode = 3) ∧
    (∀ uid image comp, req.userID = some (.int64 uid) →
      (CheckOCRRateLimit db req.faults req.dayAtCheck uid (requestIP req)).1.err = none →
      bindOCRRequest req.image = some image →
      (PrepareImageForOCR C image).err = none →
      (PrepareImageForOCR C image).result = some comp →
      upstreamFailure (req.http (GetOCREngineConfig db req.faults req.env) comp.Base64)
        = true →
      (OCRHandler C db req).1.status = 502 ∧
      (OCRHandler C db req).1.errcode = 3 ∧
      (OCRHandler C db req).2 = db ∧
      (OCRHandler C db req).2.ocr_rate_limits = db.ocr_rate_limits ∧
      (OCRHandler C db req).2.ocr_records = db.ocr_records) := by
  refine ⟨fun img h => CallOCREngine_failure db req.faults req.env req.http img h, ?_⟩
  intro uid image comp hu hchk hbind herr hres hfail
  have hcall := CallOCREngine_failure db req.faults req.env req.http comp.Base64 hfail
  unfold OCRHandler
  simp only [hu, hchk, hbind, herr, hres, CheckOCRRateLimit_db]
  cases hc : CallOCREngine db req.faults req.env req.http comp.Base64 with
  | mk result err =>
    rw [hc] at hcall
    cases err with
    | none => exact absurd rfl hcall.1
    | some e => exact ⟨rfl, rfl, rfl, rfl, rfl⟩

/-- C14 on the engine answering `errcode` 7 to user 1. -/
theorem C14_upstream_failure_no_bookkeeping_witness :
    (CallOCREngine sampleDb Faults.ok ⟨"", ""⟩ sampleHttpErr7 "small").1.ErrCode = 3 ∧
    (OCRHandler (stubCodec true 1000) sampleDb sampleRequestErr7).1.status = 502 ∧
    (OCRHandler (stubCodec true 1000) sampleDb sampleRequestErr7).1.errcode = 3 ∧
    (OCRHandler (stubCodec true 1000) sampleDb sampleRequestErr7).2 = sampleDb :=
  have h := C14_upstream_failure_no_bookkeeping (stubCodec true 1000) sampleDb sampleRequestErr7
  have h2 := h.2 1 "small" ⟨"small", 3, 3⟩ rfl (by decide) (by decide) (by decide) (by decide)
    (by decide)
  ⟨(h.1 "small" (by decide)).2, h2.1, h2.2.1, h2.2.2.1⟩

/-- C15: for a successful engine response with box list `bs`, the `Text` of the
result is the texts of `bs`, the empty ones removed, joined by one newline in
the order of `bs` (the empty string when no box has text), and `Boxes` has one
entry per element of `bs`, in the same order, the ones without text
included. -/
theorem C15_text_joined_boxes_kept (db : Db) (F : Faults) (env : OsEnv)
    (http : OCREngineConfig → String → HttpOutcome) (img : String)
    (resp : ocrEngineResponse)
    (hresp : http (GetOCREngineConfig db F env) img = .response 200 (.ok resp))
    (hcode : resp.ErrCode = 0) :
    (CallOCREngine db F env http img).2 = none ∧
    (CallOCREngine db F env http img).1.Text =
      String.intercalate "\n"
        ((resp.OCRResponse.map (fun b => b.Text)).filter (fun t => decide (t ≠ ""))) ∧
    ((∀ b ∈ resp.OCRResponse, b.Text = "") → (CallOCREngine db F env http img).1.Text = "") ∧
    (CallOCREngine db F env http img).1.Boxes = resp.OCRResponse.map toOCRBox ∧
    (CallOCREngine db F env http img).1.Boxes.length = resp.OCRResponse.length ∧
    (CallOCREngine db F env http img).1.Boxes.map (fun b => b.Text) =
      resp.OCRResponse.map (fun b => b.Text) := by
  have hcall : CallOCREngine db F env http img =
      ({ ErrCode := 0, Msg := "success",
         Text := String.intercalate "\n"
           ((resp.OCRResponse.map (fun b => b.Text)).filter (fun t => decide (t ≠ ""))),
         Boxes := resp.OCRResponse.map toOCRBox,
         Width := resp.Width, Height := resp.Height }, none) := by
    unfold CallOCREngine
    simp only [hresp, hcode, mapBoxes_eq]
    simp
  rw [hcall]
  refine ⟨rfl, rfl, ?_, rfl, by simp, ?_⟩
  · intro hall
    have hnil : (resp.OCRResponse.map (fun b => b.Text)).filter (fun t => decide (t ≠ ""))
        = [] := by
      rw [List.filter_eq_nil_iff]
      intro t ht
      obtain ⟨b, hb, rfl⟩ := List.mem_map.mp ht
      simp [hall b hb]
    simp only [hnil]
    rfl
  · simp only [List.map_map]
    rfl

/-- C15 on three boxes, the middle one without text. -/
theorem C15_text_joined_boxes_kept_witness :
    (CallOCREngine sampleDb Faults.ok ⟨"", ""⟩ sampleHttpThree "small").1.Text
      = "first\nsecond" ∧
    (CallOCREngine sampleDb Faults.ok ⟨"", ""⟩ sampleHttpThree "small").1.Boxes.length = 3 :=
  have h := C15_text_joined_boxes_kept sampleDb Faults.ok ⟨"", ""⟩ sampleHttpThree "small"
    ⟨"/tmp/a.png", 0, 710, 72,
      [⟨"first", 5, 13, 696, 45, 1⟩, ⟨"", 5, 50, 696, 60, 1⟩, ⟨"second", 5, 70, 696, 90, 1⟩]⟩
    rfl rfl
  ⟨h.2.1.trans (by decide), h.2.2.2.2.1⟩

/-! ## Theorems: the compression loop -/

/-- The encode qualities of the loop are an initial part of its schedule. -/
theorem compressLoop_qualities {Img : Type} (C : Codec Img) :
    ∀ (n : Nat) (current : Img) (quality : Int),
      encodeQualities (compressLoop C n current quality).calls <+: qualitySchedule n quality := by
  intro n
  induction n with
  | zero => intro current quality; simp [compressLoop, encodeQualities, qualitySchedule]
  | succ n ih =>
    intro current quality
    unfold compressLoop
    cases henc : C.encode current quality with
    | error e =>
      simp only [encodeQualities, qualitySchedule, List.filterMap_cons, Call.quality?,
        List.filterMap_nil]
      exact (List.prefix_cons_inj quality).mpr (List.nil_prefix)
    | ok buf =>
      by_cases hle : buf.length ≤ maxImageSize
      · simp only [hle, if_true, encodeQualities, qualitySchedule, List.filterMap_cons,
          Call.quality?, List.filterMap_nil]
        exact (List.prefix_cons_inj quality).mpr (List.nil_prefix)
      · simp only [hle, if_false, encodeQualities, qualitySchedule, List.filterMap_cons,
          Call.quality?]
        exact (List.prefix_cons_inj quality).mpr (ih _ _)

/-- A failed attempt of the loop: the calls are the encode, then a resize of the
current image to the scaled width and height, each raised to 1 when below, then
the calls of the remaining iterations on the resized image. -/
theorem compressLoop_failed_attempt {Img : Type} (C : Codec Img) (n : Nat) (current : Img)
    (quality : Int) (buf : Bytes) (henc : C.encode current quality = .ok buf)
    (hbig : maxImageSize < buf.length) :
    (compressLoop C (n + 1) current quality).calls =
      .encode current quality ::
      .resize current (max 1 (C.scaled (C.dx current) buf.length))
        (max 1 (C.scaled (C.dy current) buf.length)) ::
      (compressLoop C n
        (C.resize current (max 1 (C.scaled (C.dx current) buf.length))
          (max 1 (C.scaled (C.dy current) buf.length)))
        (nextQuality quality)).calls := by
  have hnle : ¬ buf.length ≤ maxImageSize := Nat.not_le.mpr hbig
  have hmax : ∀ x : Int, (if x < 1 then 1 else x) = max 1 x := by
    intro x
    by_cases hx : x < 1
    · simp only [hx, if_true]; omega
    · simp only [hx, if_false]; omega
  rw [compressLoop]
  simp only [henc, hnle, if_false, hmax, nextQuality]

/-- Every width and height asked of the resizer by the loop is at least 1. -/
theorem compressLoop_resize_positive {Img : Type} (C : Codec Img) :
    ∀ (n : Nat) (current : Img) (quality : Int),
      ∀ wh ∈ (compressLoop C n current quality).calls.filterMap Call.size?,
        1 ≤ wh.1 ∧ 1 ≤ wh.2 := by
  intro n
  induction n with
  | zero => intro current quality wh h; simp [compressLoop] at h
  | succ n ih =>
    intro current quality wh h
    cases henc : C.encode current quality with
    | error e =>
      unfold compressLoop at h
      simp [henc, Call.size?] at h
    | ok buf =>
      by_cases hle : buf.length ≤ maxImageSize
      · unfold compressLoop at h
        simp [henc, hle, Call.size?] at h
      · rw [compressLoop_failed_attempt C n current quality buf henc (Nat.not_le.mp hle)] at h
        simp only [List.filterMap_cons, Call.size?, List.mem_cons] at h
        rcases h with h | h
        · subst h
          exact ⟨le_max_left _ _, le_max_left _ _⟩
        · exact ih _ _ wh h

/-- C19: the qualities of the JPEG encodes made by `CompressToLimit`, in order,
are an initial part of 90, 80, 70; so the encode of attempt `i` (counted from 0)
uses quality `max(40, 90 - 10*i)`, each quality is between 40 and 90, and the
qualities do not increase from one attempt to the next. -/
theorem C19_quality_schedule {Img : Type} (C : Codec Img) (src : Bytes) :
    encodeQualities (CompressToLimit C src).calls <+: [90, 80, 70] ∧
    (∀ (i : Nat) (q : Int), (encodeQualities (CompressToLimit C src).calls)[i]? = some q →
      q = max 40 (90 - 10 * (i : Int)) ∧ 40 ≤ q ∧ q ≤ 90) ∧
    (encodeQualities (CompressToLimit C src).calls).Pairwise (fun a b => a ≥ b) := by
  have hpre : encodeQualities (CompressToLimit C src).calls <+: [90, 80, 70] := by
    unfold CompressToLimit
    by_cases hle : src.length ≤ maxImageSize
    · simp [hle, encodeQualities]
    · simp only [hle, if_false]
      cases hdec : C.decode src with
      | error e => simp [encodeQualities, Call.quality?]
      | ok img =>
        simp only [encodeQualities, List.filterMap_cons, Call.quality?]
        exact compressLoop_qualities C maxCompressTimes img 90
  refine ⟨hpre, ?_, ?_⟩
  · have hmem := (List.mem_inits _ _).mpr hpre
    simp only [List.inits, List.map_cons, List.map_nil, List.mem_cons, List.mem_singleton,
      List.not_mem_nil, or_false] at hmem
    intro i q hq
    rcases hmem with h | h | h | h <;> rw [h] at hq
    · simp at hq
    · rcases i with _ | i
      · simp at hq; subst hq; decide
      · simp at hq
    · rcases i with _ | _ | i
      · simp at hq; subst hq; decide
      · simp at hq; subst hq; decide
      · simp at hq
    · rcases i with _ | _ | _ | i
      · simp at hq; subst hq; decide
      · simp at hq; subst hq; decide
      · simp at hq; subst hq; decide
      · simp at hq
  · exact List.Pairwise.sublist hpre.sublist (by decide)

/-- C19 on an input of 8388609 bytes, every JPEG encoding of which has 9000000
bytes: the three encodes use 90, 80 and 70. -/
theorem C19_quality_schedule_witness :
    encodeQualities (CompressToLimit (stubCodec true 9000000) (zeros 8388609)).calls
      = [90, 80, 70] ∧
    (70 : Int) = max 40 (90 - 10 * ((2 : Nat) : Int)) ∧ (40 : Int) ≤ 70 ∧ (70 : Int) ≤ 90 :=
  have h : encodeQualities (CompressToLimit (stubCodec true 9000000) (zeros 8388609)).calls
      = [90, 80, 70] := by
    simp only [CompressToLimit, compressLoop, stubCodec, maxImageSize, maxCompressTimes,
      zeros_length]
    rfl
  ⟨h, (C19_quality_schedule (stubCodec true 9000000) (zeros 8388609)).2.1 2 70
    (by rw [h]; rfl)⟩

/-! ## Theorems: the history -/

/-- The history of a user newest first is sorted by `created_at`, newest first. -/
theorem history_sorted (rows : List OCRRecordRow) :
    (rows.insertionSort (fun a b => a.created_at ≥ b.created_at)).Pairwise
      (fun a b => a.created_at ≥ b.created_at) := by
  haveI : IsTotal OCRRecordRow (fun a b => a.created_at ≥ b.created_at) :=
    ⟨fun a b => le_total b.created_at a.created_at⟩
  haveI : IsTrans OCRRecordRow (fun a b => a.created_at ≥ b.created_at) :=
    ⟨fun _ _ _ hab hbc => le_trans hbc hab⟩
  exact List.sorted_insertionSort (fun a b : OCRRecordRow => a.created_at ≥ b.created_at) rows

/-- The limit that `GetRecentOCRRecords` uses is between 1 and 20. -/
theorem effective_limit_bounds (limit : Int) :
    (if limit ≤ 0 ∨ limit > (maxHistoryPerUser : Int) then (maxHistoryPerUser : Int)
      else limit).toNat ≤ 20 ∧
    (if limit ≤ 0 ∨ limit > (maxHistoryPerUser : Int) then (maxHistoryPerUser : Int)
      else limit).toNat =
      (if 1 ≤ limit ∧ limit ≤ 20 then limit.toNat else 20) := by
  have h20 : ((maxHistoryPerUser : Nat) : Int) = 20 := rfl
  rw [h20]
  by_cases h : limit ≤ 0 ∨ limit > 20
  · have h' : ¬ (1 ≤ limit ∧ limit ≤ 20) := by omega
    rw [if_pos h, if_neg h']
    exact ⟨by decide, by decide⟩
  · have h' : 1 ≤ limit ∧ limit ≤ 20 := by omega
    rw [if_neg h, if_pos h']
    exact ⟨by omega, rfl⟩

/-- C16: whatever the user, the tables and the limit argument,
`GetRecentOCRRecords` returns at most 20 records, each a stored record of that
user, ordered by `created_at` from newest to oldest; and when the query does not
fail, their number is the smaller of the effective limit and the number of the
user's records, the effective limit being the argument when it is between 1 and
20, and 20 otherwise. -/
theorem C16_recent_records_bounded_sorted (db : Db) (queryFault : Option String)
    (uid : Int) (limit : Int) :
    (GetRecentOCRRecords db queryFault uid limit).1.length ≤ 20 ∧
    (∀ x ∈ (GetRecentOCRRecords db queryFault uid limit).1,
      x.user_id = uid ∧ x ∈ db.ocr_records) ∧
    (GetRecentOCRRecords db queryFault uid limit).1.Pairwise
      (fun a b => a.created_at ≥ b.created_at) ∧
    (queryFault = none →
      (GetRecentOCRRecords db queryFault uid limit).2 = none ∧
      (GetRecentOCRRecords db queryFault uid limit).1.length =
        min (if 1 ≤ limit ∧ limit ≤ 20 then limit.toNat else 20)
          (db.ocr_records.filter (fun r => r.user_id = uid)).length) := by
  have hb := effective_limit_bounds limit
  cases queryFault with
  | some msg => simp [GetRecentOCRRecords]
  | none =>
    simp only [GetRecentOCRRecords]
    refine ⟨?_, ?_, ?_, ?_⟩
    · exact le_trans (List.length_take_le _ _) hb.1
    · intro x hx
      have hx' := (List.mem_insertionSort _).mp (List.mem_of_mem_take hx)
      have hx'' := List.mem_filter.mp hx'
      exact ⟨by simpa using hx''.2, hx''.1⟩
    · exact List.Pairwise.sublist (List.take_sublist _ _) (history_sorted _)
    · intro _
      refine ⟨by first | rfl | trivial, ?_⟩
      rw [List.length_take, List.length_insertionSort, hb.2]

/-- C16 on `sampleDbHistory`: with the limit arguments 0, 5 and 100, user 1 gets
20, 5 and 20 records. -/
theorem C16_recent_records_bounded_sorted_witness :
    (GetRecentOCRRecords sampleDbHistory none 1 0).1.length = 20 ∧
    (GetRecentOCRRecords sampleDbHistory none 1 5).1.length = 5 ∧
    (GetRecentOCRRecords sampleDbHistory none 1 100).1.length = 20 :=
  ⟨((C16_recent_records_bounded_sorted sampleDbHistory none 1 0).2.2.2 rfl).2.trans
      (by decide),
    ((C16_recent_records_bounded_sorted sampleDbHistory none 1 5).2.2.2 rfl).2.trans
      (by decide),
    ((C16_recent_records_bounded_sorted sampleDbHistory none 1 100).2.2.2 rfl).2.trans
      (by decide)⟩

/-- The running maximum of `nextId` is at least its start and at least every
id. -/
theorem le_foldl_max (ids : List Int) :
    ∀ seq : Int, seq ≤ ids.foldl max seq ∧ ∀ i ∈ ids, i ≤ ids.foldl max seq := by
  induction ids with
  | nil => intro seq; simp
  | cons a rest ih =>
    intro seq
    have h := ih (max seq a)
    simp only [List.foldl_cons, List.mem_cons]
    refine ⟨le_trans (le_max_left seq a) h.1, ?_⟩
    intro i hi
    rcases hi with hi | hi
    · subst hi; exact le_trans (le_max_right seq i) h.1
    · exact h.2 i hi

/-- The id given by `nextId` is larger than every id of the table. -/
theorem nextId_fresh (seq : Int) (ids : List Int) : ∀ i ∈ ids, i < nextId seq ids := by
  intro i hi
  have h := (le_foldl_max ids seq).2 i hi
  unfold nextId
  omega

/-- In a table with a primary key on `id`, keeping the rows whose id is among
the ids of a duplicate-free selection of rows of the table keeps exactly that
selection. -/
theorem filter_by_ids_perm (m S : List OCRRecordRow)
    (hm : (m.map (fun r => r.id)).Nodup) (hS : S.Nodup) (hsub : ∀ x ∈ S, x ∈ m) :
    (m.filter (fun r => (S.map (fun r => r.id)).contains r.id)).Perm S := by
  refine (List.perm_ext_iff_of_nodup ((List.Nodup.of_map _ hm).filter _) hS).mpr ?_
  intro x
  simp only [List.mem_filter, List.contains_iff_exists_mem_beq, List.mem_map, beq_iff_eq]
  constructor
  · rintro ⟨hxm, _, ⟨y, hyS, rfl⟩, hid⟩
    have hxy : x = y := List.inj_on_of_nodup_map hm hxm (hsub y hyS) hid
    rw [hxy]
    exact hyS
  · intro hx
    exact ⟨hsub x hx, x.id, ⟨x, hx, rfl⟩, rfl⟩

/-- The rows that the pruning `DELETE` of `SaveOCRRecord` keeps, restricted to
the user: the user's rows whose id is among the kept ids. -/
theorem prune_user_rows (rows : List OCRRecordRow) (uid : Int) (keep : List Int) :
    (rows.filter (fun r => !(decide (r.user_id = uid) && !(keep.contains r.id)))).filter
        (fun r => decide (r.user_id = uid))
      = (rows.filter (fun r => decide (r.user_id = uid))).filter
          (fun r => keep.contains r.id) := by
  rw [List.filter_filter, List.filter_filter]
  apply List.filter_congr
  intro r _
  by_cases h : r.user_id = uid <;> simp [h]

/-- The rows that the pruning `DELETE` of `SaveOCRRecord` keeps, restricted to
the other users: all their rows. -/
theorem prune_other_rows (rows : List OCRRecordRow) (uid : Int) (keep : List Int) :
    (rows.filter (fun r => !(decide (r.user_id = uid) && !(keep.contains r.id)))).filter
        (fun r => decide (r.user_id ≠ uid))
      = rows.filter (fun r => decide (r.user_id ≠ uid)) := by
  rw [List.filter_filter]
  apply List.filter_congr
  intro r _
  by_cases h : r.user_id = uid <;> simp [h]

/-- What `SaveOCRRecord` leaves in `ocr_records` when the text is not empty and
neither statement fails. -/
theorem SaveOCRRecord_rows (db : Db) (F : Faults) (now : Int) (uid : Int) (text : String)
    (htext : text ≠ "") (hins : F.recordInsert = none) (hprune : F.recordPrune = none) :
    (SaveOCRRecord db F now uid text).1 = none ∧
    (SaveOCRRecord db F now uid text).2.ocr_records =
      (db.ocr_records ++ [(⟨nextId db.seq_ocr_records (db.ocr_records.map (fun r => r.id)),
          uid, text, now⟩ : OCRRecordRow)]).filter
        (fun r => !(decide (r.user_id = uid) &&
          !((recentRecordIds
            (db.ocr_records ++
              [(⟨nextId db.seq_ocr_records (db.ocr_records.map (fun r => r.id)), uid, text,
                now⟩ : OCRRecordRow)])
            uid maxHistoryPerUser).contains r.id))) := by
  unfold SaveOCRRecord
  simp only [htext, if_false, hins, hprune]
  exact ⟨by first | rfl | trivial, by first | rfl | trivial⟩

/-- C17: when the text is not empty, the insert and the prune of `SaveOCRRecord`
are both executed and `id` is a primary key of `ocr_records`, the call returns a
nil error and the user's rows are afterwards exactly the 20 most recent by
`created_at` among the user's previous rows and the new row (all of them when
they are at most 20), so at most 20 rows; the rows of the other users are
unchanged. -/
theorem C17_history_pruned_to_twenty (db : Db) (F : Faults) (now : Int) (uid : Int)
    (text : String) (htext : text ≠ "") (hins : F.recordInsert = none)
    (hprune : F.recordPrune = none)
    (hids : (db.ocr_records.map (fun r => r.id)).Nodup) :
    (SaveOCRRecord db F now uid text).1 = none ∧
    ∃ new : OCRRecordRow, new.user_id = uid ∧ new.text = text ∧ new.created_at = now ∧
      (∀ r ∈ db.ocr_records, r.id < new.id) ∧
      ((SaveOCRRecord db F now uid text).2.ocr_records.filter
          (fun r => decide (r.user_id = uid))).Perm
        ((((db.ocr_records ++ [new]).filter (fun r => decide (r.user_id = uid))).insertionSort
          (fun a b => a.created_at ≥ b.created_at)).take 20) ∧
      (((db.ocr_records ++ [new]).filter (fun r => decide (r.user_id = uid))).length ≤ 20 →
        ((SaveOCRRecord db F now uid text).2.ocr_records.filter
            (fun r => decide (r.user_id = uid))).Perm
          ((db.ocr_records ++ [new]).filter (fun r => decide (r.user_id = uid)))) ∧
      ((SaveOCRRecord db F now uid text).2.ocr_records.filter
          (fun r => decide (r.user_id = uid))).length ≤ 20 ∧
      (SaveOCRRecord db F now uid text).2.ocr_records.filter
          (fun r => decide (r.user_id ≠ uid))
        = db.ocr_records.filter (fun r => decide (r.user_id ≠ uid)) := by
  obtain ⟨herr, hrows⟩ := SaveOCRRecord_rows db F now uid text htext hins hprune
  refine ⟨herr, ⟨nextId db.seq_ocr_records (db.ocr_records.map (fun r => r.id)),
    uid, text, now⟩, rfl, rfl, rfl, ?_, ?_⟩
  · intro r hr
    exact nextId_fresh _ _ r.id (List.mem_map_of_mem (fun r => r.id) hr)
  · set new : OCRRecordRow :=
      ⟨nextId db.seq_ocr_records (db.ocr_records.map (fun r => r.id)), uid, text, now⟩
      with hnew
    set rows := db.ocr_records ++ [new] with hrowsdef
    have hfresh : new.id ∉ db.ocr_records.map (fun r => r.id) := by
      intro hmem
      exact lt_irrefl _ (nextId_fresh db.seq_ocr_records _ new.id hmem)
    have hrowsNodup : (rows.map (fun r => r.id)).Nodup := by
      rw [hrowsdef, List.map_append]
      refine List.Nodup.append hids (by simp) ?_
      intro i hi hi'
      simp only [List.map_cons, List.map_nil, List.mem_singleton] at hi'
      rw [hi'] at hi
      exact hfresh hi
    set m := rows.filter (fun r => decide (r.user_id = uid)) with hm
    have hmNodup : (m.map (fun r => r.id)).Nodup :=
      List.Nodup.sublist ((List.filter_sublist _).map _) hrowsNodup
    set S := (m.insertionSort (fun a b => a.created_at ≥ b.created_at)).take 20 with hS
    have hSsub : ∀ x ∈ S, x ∈ m := fun x hx =>
      (List.mem_insertionSort _).mp (List.mem_of_mem_take hx)
    have hSNodup : S.Nodup :=
      List.Nodup.sublist (List.take_sublist _ _)
        ((List.perm_insertionSort _ m).nodup_iff.mpr (List.Nodup.of_map _ hmNodup))
    have hkeep : recentRecordIds rows uid maxHistoryPerUser = S.map (fun r => r.id) := rfl
    have huser : (SaveOCRRecord db F now uid text).2.ocr_records.filter
        (fun r => decide (r.user_id = uid)) =
        m.filter (fun r => (S.map (fun r => r.id)).contains r.id) := by
      rw [hrows, prune_user_rows, hkeep]
    have hperm := filter_by_ids_perm m S hmNodup hSNodup hSsub
    refine ⟨?_, ?_, ?_, ?_⟩
    · rw [huser]; exact hperm
    · intro hlen
      rw [huser]
      have hall : S = m.insertionSort (fun a b => a.created_at ≥ b.created_at) := by
        rw [hS]
        exact List.take_of_length_le (by rw [List.length_insertionSort]; exact hlen)
      exact hperm.trans (hall ▸ List.perm_insertionSort _ m)
    · rw [huser, hperm.length_eq]
      exact List.length_take_le _ _
    · rw [hrows, prune_other_rows, hrowsdef, List.filter_append]
      simp [hnew]

/-- C17 on `sampleDbHistory`, where user 1 has 22 records before the call. -/
theorem C17_history_pruned_to_twenty_witness :
    (SaveOCRRecord sampleDbHistory Faults.ok 100 1 "new").1 = none ∧
    ((SaveOCRRecord sampleDbHistory Faults.ok 100 1 "new").2.ocr_records.filter
      (fun r => decide (r.user_id = 1))).length ≤ 20 ∧
    (SaveOCRRecord sampleDbHistory Faults.ok 100 1 "new").2.ocr_records.filter
        (fun r => decide (r.user_id ≠ 1))
      = sampleDbHistory.ocr_records.filter (fun r => decide (r.user_id ≠ 1)) :=
  have h := C17_history_pruned_to_twenty sampleDbHistory Faults.ok 100 1 "new" (by decide)
    rfl rfl (by decide)
  ⟨h.1, h.2.elim (fun _ hn => hn.2.2.2.2.2.2.1), h.2.elim (fun _ hn => hn.2.2.2.2.2.2.2)⟩

/-- With at most 20 rows of the user after the insert, the pruning `DELETE` of
`SaveOCRRecord` deletes nothing. -/
theorem prune_keeps_all (rows : List OCRRecordRow) (uid : Int)
    (hlen : (rows.filter (fun r => decide (r.user_id = uid))).length ≤ 20) :
    rows.filter (fun r => !(decide (r.user_id = uid) &&
      !((recentRecordIds rows uid maxHistoryPerUser).contains r.id))) = rows := by
  rw [List.filter_eq_self]
  intro r hr
  by_cases hu : r.user_id = uid
  · have hmem : r ∈ (rows.filter (fun r => decide (r.user_id = uid))).insertionSort
        (fun a b => a.created_at ≥ b.created_at) :=
      (List.mem_insertionSort _).mpr (List.mem_filter.mpr ⟨hr, by simpa using hu⟩)
    have hkeep : r.id ∈ recentRecordIds rows uid maxHistoryPerUser := by
      unfold recentRecordIds maxHistoryPerUser
      rw [List.take_of_length_le (by rw [List.length_insertionSort]; exact hlen)]
      exact List.mem_map_of_mem (fun r => r.id) hmem
    simp [hkeep]
  · simp [hu]

/-- C18, as stated, fails: when the engine recognises no text, the request is
answered 200 with errcode 0 and one quota row is inserted, but no history record
is written. -/
theorem C18_no_history_for_empty_text :
    (OCRHandler (stubCodec true 1000) sampleDb sampleRequestNoText).1.status = 200 ∧
    (OCRHandler (stubCodec true 1000) sampleDb sampleRequestNoText).1.errcode = 0 ∧
    (OCRHandler (stubCodec true 1000) sampleDb sampleRequestNoText).1.ocr.map (fun o => o.text)
      = some "" ∧
    (OCRHandler (stubCodec true 1000) sampleDb sampleRequestNoText).2.ocr_rate_limits.length = 1 ∧
    sampleDb.ocr_records = [] ∧
    (OCRHandler (stubCodec true 1000) sampleDb sampleRequestNoText).2.ocr_records = [] := by
  decide

/-- The counter of `ocr_records` after `SaveOCRRecord` has inserted: the id of
the new row. -/
theorem SaveOCRRecord_seq (db : Db) (F : Faults) (now : Int) (uid : Int) (text : String)
    (htext : text ≠ "") (hins : F.recordInsert = none) :
    (SaveOCRRecord db F now uid text).2.seq_ocr_records =
      nextId db.seq_ocr_records (db.ocr_records.map (fun r => r.id)) := by
  unfold SaveOCRRecord
  simp only [htext, if_false, hins]

/-- The pruning `DELETE` of `SaveOCRRecord`, run on a table with a primary key
on `id` to which a row with a fresh id has just been appended: the user's rows
that remain are exactly the 20 most recent by `created_at` among the user's
rows of the table with the new row, so at most 20, and the rows of the other
users all remain. -/
theorem pruned_rows_most_recent (old : List OCRRecordRow) (new : OCRRecordRow) (uid : Int)
    (hids : (old.map (fun r => r.id)).Nodup) (hfresh : ∀ r ∈ old, r.id < new.id) :
    (((old ++ [new]).filter (fun r => !(decide (r.user_id = uid) &&
        !((recentRecordIds (old ++ [new]) uid maxHistoryPerUser).contains r.id)))).filter
        (fun r => decide (r.user_id = uid))).Perm
      ((((old ++ [new]).filter (fun r => decide (r.user_id = uid))).insertionSort
        (fun a b => a.created_at ≥ b.created_at)).take 20) ∧
    (((old ++ [new]).filter (fun r => !(decide (r.user_id = uid) &&
        !((recentRecordIds (old ++ [new]) uid maxHistoryPerUser).contains r.id)))).filter
        (fun r => decide (r.user_id = uid))).length ≤ 20 ∧
    ((old ++ [new]).filter (fun r => !(decide (r.user_id = uid) &&
        !((recentRecordIds (old ++ [new]) uid maxHistoryPerUser).contains r.id)))).filter
        (fun r => decide (r.user_id ≠ uid))
      = (old ++ [new]).filter (fun r => decide (r.user_id ≠ uid)) := by
  have hnotin : new.id ∉ old.map (fun r => r.id) := by
    intro hmem
    obtain ⟨r, hr, hrid⟩ := List.mem_map.mp hmem
    have := hfresh r hr
    omega
  have hrowsNodup : ((old ++ [new]).map (fun r => r.id)).Nodup := by
    rw [List.map_append]
    refine List.Nodup.append hids (by simp) ?_
    intro i hi hi'
    simp only [List.map_cons, List.map_nil, List.mem_singleton] at hi'
    rw [hi'] at hi
    exact hnotin hi
  have hmNodup : (((old ++ [new]).filter (fun r => decide (r.user_id = uid))).map
      (fun r => r.id)).Nodup :=
    List.Nodup.sublist ((List.filter_sublist _).map _) hrowsNodup
  have hSsub : ∀ x ∈ (((old ++ [new]).filter (fun r => decide (r.user_id = uid))).insertionSort
      (fun a b => a.created_at ≥ b.created_at)).take 20,
      x ∈ (old ++ [new]).filter (fun r => decide (r.user_id = uid)) := fun x hx =>
    (List.mem_insertionSort _).mp (List.mem_of_mem_take hx)
  have hSNodup : ((((old ++ [new]).filter (fun r => decide (r.user_id = uid))).insertionSort
      (fun a b => a.created_at ≥ b.created_at)).take 20).Nodup :=
    List.Nodup.sublist (List.take_sublist _ _)
      ((List.perm_insertionSort _ _).nodup_iff.mpr (List.Nodup.of_map _ hmNodup))
  have hperm := filter_by_ids_perm _ _ hmNodup hSNodup hSsub
  have huser : ((old ++ [new]).filter (fun r => !(decide (r.user_id = uid) &&
      !((recentRecordIds (old ++ [new]) uid maxHistoryPerUser).contains r.id)))).filter
      (fun r => decide (r.user_id = uid)) =
      ((old ++ [new]).filter (fun r => decide (r.user_id = uid))).filter
        (fun r => (((((old ++ [new]).filter (fun r => decide (r.user_id = uid))).insertionSort
          (fun a b => a.created_at ≥ b.created_at)).take 20).map
            (fun r => r.id)).contains r.id) := by
    rw [prune_user_rows]
    rfl
  refine ⟨?_, ?_, prune_other_rows _ _ _⟩
  · rw [huser]; exact hperm
  · rw [huser, hperm.length_eq]
    exact List.length_take_le _ _

/-- C18, amended: for a request whose upstream call succeeds and whose
bookkeeping writes do not fail, `OCRHandler` first inserts exactly one quota row
for the user and the day, leaving `ocr_records` alone; then runs
`SaveOCRRecord` on the database so obtained; then answers 200 with errcode 0 and
the text. For an empty recognised text `SaveOCRRecord` writes nothing. For a
non-empty one it inserts exactly one record, with a fresh id, holding the user,
the text and the time, and prunes: what is left is part of the old rows plus the
record; the rows of the other users are all kept; with `id` a primary key, the
user's rows left are exactly the 20 most recent by `created_at` among the user's
old rows and the record, so at most 20; and while the user has fewer than 20
records before, the table is the old rows followed by the record. -/
theorem C18_success_bookkeeping_order {Img : Type} (C : Codec Img) (db : Db) (req : Request)
    (uid : Int) (image : String) (comp : CompressResult) (result : OCRResult)
    (hu : req.userID = some (.int64 uid))
    (hchk : (CheckOCRRateLimit db req.faults req.dayAtCheck uid (requestIP req)).1.err = none)
    (hbind : bindOCRRequest req.image = some image)
    (herr : (PrepareImageForOCR C image).err = none)
    (hres : (PrepareImageForOCR C image).result = some comp)
    (heng : CallOCREngine db req.faults req.env req.http comp.Base64 = (result, none))
    (hri : req.faults.rateInsert = none) (hrec : req.faults.recordInsert = none)
    (hpr : req.faults.recordPrune = none) :
    ∃ quotaRow : RateLimitRow, quotaRow.user_id = uid ∧ quotaRow.date = req.dayAtRecord ∧
      (RecordOCRRequest db req.faults req.dayAtRecord req.nowAtRecord uid
        (requestIP req)).2.ocr_rate_limits = db.ocr_rate_limits ++ [quotaRow] ∧
      (RecordOCRRequest db req.faults req.dayAtRecord req.nowAtRecord uid
        (requestIP req)).2.ocr_records = db.ocr_records ∧
      (OCRHandler C db req).2 =
        (SaveOCRRecord (RecordOCRRequest db req.faults req.dayAtRecord req.nowAtRecord uid
          (requestIP req)).2 req.faults req.nowAtSave uid result.Text).2 ∧
      (OCRHandler C db req).2.ocr_rate_limits = db.ocr_rate_limits ++ [quotaRow] ∧
      (result.Text = "" → (OCRHandler C db req).2.ocr_records = db.ocr_records) ∧
      (result.Text ≠ "" → ∃ record : OCRRecordRow, record.user_id = uid ∧
        record.text = result.Text ∧ record.created_at = req.nowAtSave ∧
        (∀ r ∈ db.ocr_records, r.id < record.id) ∧
        (OCRHandler C db req).2.seq_ocr_records = record.id ∧
        List.Sublist (OCRHandler C db req).2.ocr_records (db.ocr_records ++ [record]) ∧
        ((db.ocr_records.filter (fun r => decide (r.user_id = uid))).length < 20 →
          (OCRHandler C db req).2.ocr_records = db.ocr_records ++ [record]) ∧
        (OCRHandler C db req).2.ocr_records.filter (fun r => decide (r.user_id ≠ uid))
          = db.ocr_records.filter (fun r => decide (r.user_id ≠ uid)) ∧
        ((db.ocr_records.map (fun r => r.id)).Nodup →
          ((OCRHandler C db req).2.ocr_records.filter
              (fun r => decide (r.user_id = uid))).Perm
            ((((db.ocr_records ++ [record]).filter
              (fun r => decide (r.user_id = uid))).insertionSort
                (fun a b => a.created_at ≥ b.created_at)).take 20) ∧
          ((OCRHandler C db req).2.ocr_records.filter
              (fun r => decide (r.user_id = uid))).length ≤ 20)) ∧
      (OCRHandler C db req).1.status = 200 ∧
      (OCRHandler C db req).1.errcode = 0 ∧
      (OCRHandler C db req).1.ocr.map (fun o => o.text) = some result.Text := by
  have hstep := OCRHandler_success C db req uid image comp result hu hchk hbind herr hres heng
  have hcode := CallOCREngine_ok_errcode db req.faults req.env req.http comp.Base64 result heng
  have hrec1 : (RecordOCRRequest db req.faults req.dayAtRecord req.nowAtRecord uid
      (requestIP req)).2.ocr_records = db.ocr_records := by
    unfold RecordOCRRequest
    rw [hri]
  have hseq1 : (RecordOCRRequest db req.faults req.dayAtRecord req.nowAtRecord uid
      (requestIP req)).2.seq_ocr_records = db.seq_ocr_records := by
    unfold RecordOCRRequest
    rw [hri]
  obtain ⟨quotaRow, hqu, hqd, hqrows⟩ := RecordOCRRequest_appends db req.faults req.dayAtRecord
    req.nowAtRecord uid (requestIP req) hri
  have hfr := recordSuccess_frame db req uid (requestIP req) result.Text
  have hfinal : (OCRHandler C db req).2 =
      (SaveOCRRecord (RecordOCRRequest db req.faults req.dayAtRecord req.nowAtRecord uid
        (requestIP req)).2 req.faults req.nowAtSave uid result.Text).2 := by
    rw [hstep]; rfl
  refine ⟨quotaRow, hqu, hqd, hqrows, hrec1, hfinal, ?_, ?_, ?_, ?_, ?_, ?_⟩
  · rw [hstep]; exact hfr.2.2.trans hqrows
  · intro hempty
    rw [hstep]
    simp only [recordSuccess, SaveOCRRecord, hempty, if_true]
    exact hrec1
  · intro hne
    obtain ⟨_, hrows⟩ := SaveOCRRecord_rows
      (RecordOCRRequest db req.faults req.dayAtRecord req.nowAtRecord uid (requestIP req)).2
      req.faults req.nowAtSave uid result.Text hne hrec hpr
    have hseq := SaveOCRRecord_seq
      (RecordOCRRequest db req.faults req.dayAtRecord req.nowAtRecord uid (requestIP req)).2
      req.faults req.nowAtSave uid result.Text hne hrec
    rw [hrec1, hseq1] at hrows hseq
    rw [← hfinal] at hrows hseq
    have hfresh : ∀ r ∈ db.ocr_records,
        r.id < nextId db.seq_ocr_records (db.ocr_records.map (fun r => r.id)) :=
      fun r hr => nextId_fresh _ _ r.id (List.mem_map_of_mem (fun r => r.id) hr)
    refine ⟨⟨nextId db.seq_ocr_records (db.ocr_records.map (fun r => r.id)), uid, result.Text,
      req.nowAtSave⟩, rfl, rfl, rfl, hfresh, hseq, ?_, ?_, ?_, ?_⟩
    · rw [hrows]
      exact List.filter_sublist _
    · intro hlt
      rw [hrows]
      apply prune_keeps_all
      rw [List.filter_append, List.length_append]
      have h1 : ([(⟨nextId db.seq_ocr_records (db.ocr_records.map (fun r => r.id)), uid,
          result.Text, req.nowAtSave⟩ : OCRRecordRow)].filter
          (fun r => decide (r.user_id = uid))).length ≤ 1 :=
        le_trans (List.length_filter_le _ _) (by simp)
      omega
    · rw [hrows, prune_other_rows, List.filter_append]
      simp
    · intro hids
      have hp := pruned_rows_most_recent db.ocr_records
        ⟨nextId db.seq_ocr_records (db.ocr_records.map (fun r => r.id)), uid, result.Text,
          req.nowAtSave⟩ uid hids hfresh
      rw [hrows]
      exact ⟨hp.1, hp.2.1⟩
  · rw [hstep]; rfl
  · rw [hstep]; exact hcode
  · rw [hstep]; rfl

/-- C18, amended, on `sampleRequest`, whose recognised text is `"hello"`, against
`sampleDbHistory`, where user 1 has 22 history records before the request. -/
theorem C18_success_bookkeeping_order_witness :
    (OCRHandler (stubCodec true 1000) sampleDbHistory sampleRequest).1.status = 200 ∧
    (OCRHandler (stubCodec true 1000) sampleDbHistory sampleRequest).1.errcode = 0 ∧
    (OCRHandler (stubCodec true 1000) sampleDbHistory sampleRequest).1.ocr.map
      (fun o => o.text) = some "hello" ∧
    ((OCRHandler (stubCodec true 1000) sampleDbHistory sampleRequest).2.ocr_records.filter
      (fun r => decide (r.user_id = 1))).length ≤ 20 :=
  have h := C18_success_bookkeeping_order (stubCodec true 1000) sampleDbHistory sampleRequest 1
    "small" ⟨"small", 3, 3⟩
    (CallOCREngine sampleDbHistory sampleRequest.faults sampleRequest.env sampleRequest.http
      "small").1
    rfl (by decide) (by decide) (by decide) (by decide) (by decide) rfl rfl rfl
  h.elim (fun _ hq => ⟨hq.2.2.2.2.2.2.2.2.1, hq.2.2.2.2.2.2.2.2.2.1,
    hq.2.2.2.2.2.2.2.2.2.2.trans (by decide),
    (hq.2.2.2.2.2.2.2.1 (by decide)).elim
      (fun _ hr => (hr.2.2.2.2.2.2.2.2 (by decide)).2)⟩)

/-! ## Theorems: sessions -/

/-- With a unique `token` column, the lookup of a session by token finds the row
with that token. -/
theorem find_session_of_mem (sessions : List SessionRow) (row : SessionRow)
    (hnd : (sessions.map (fun r => r.token)).Nodup) (hrow : row ∈ sessions) :
    sessions.find? (fun r => r.token = row.token) = some row := by
  induction sessions with
  | nil => cases hrow
  | cons a rest ih =>
    simp only [List.map_cons, List.nodup_cons] at hnd
    rcases List.mem_cons.mp hrow with h | h
    · subst h; simp
    · have hne : a.token ≠ row.token := by
        intro heq
        exact hnd.1 (heq ▸ List.mem_map_of_mem (fun r => r.token) h)
      simp [List.find?_cons, hne, ih hnd.2 h]

/-- What `ValidateToken` returns for a token that `ParseToken` accepts and whose
session row is found. -/
theorem ValidateToken_found (L : AuthLib) (db : Db) (F : AuthFaults) (secretEnv : String)
    (now : Int) (token : String) (claims : Claims) (row : SessionRow)
    (hparse : ParseToken L secretEnv token = (some claims, none))
    (hq : F.sessionQuery = none)
    (hnd : (db.sessions.map (fun r => r.token)).Nodup)
    (hrow : row ∈ db.sessions) (htok : row.token = token) :
    ValidateToken L db F secretEnv now token =
      (if claims.UserID ≠ row.user_id then (none, some (.errorf "token 与会话不匹配"))
       else if row.expires_at < now then (none, some (.errorf "会话已过期"))
       else (some row, none)) := by
  have hfind := find_session_of_mem db.sessions row hnd hrow
  rw [htok] at hfind
  unfold ValidateToken
  simp only [hparse, hq, hfind, Option.map_some', ne_eq, Option.some.injEq]

/-- What `ValidateToken` returns for a token that `ParseToken` rejects:
`ParseToken`'s error, whatever the sessions. -/
theorem ValidateToken_rejected (L : AuthLib) (db : Db) (F : AuthFaults) (secretEnv : String)
    (now : Int) (token : String) (err : GoError)
    (hparse : (ParseToken L secretEnv token).2 = some err) :
    ValidateToken L db F secretEnv now token = (none, some err) := by
  unfold ValidateToken
  cases hp : ParseToken L secretEnv token with
  | mk claims? e =>
    rw [hp] at hparse
    simp only at hparse
    subst hparse
    rfl

/-- C11, as stated, fails: the token `"good"` parses, its session row has the
token's user id and `expires_at = 1000`, and at the time 1000, equal to the
expiry, `ValidateToken` succeeds and returns the row. -/
theorem C11_valid_at_expiry_instant :
    ParseToken stubAuth "" "good" = (some ⟨1, some 2000⟩, none) ∧
    (⟨1, 1, "good", 1000⟩ : SessionRow) ∈ sampleDbSessions.sessions ∧
    ValidateToken stubAuth sampleDbSessions AuthFaults.ok "" 1000 "good"
      = (some ⟨1, 1, "good", 1000⟩, none) ∧
    ValidateToken stubAuth sampleDbSessions AuthFaults.ok "" 1001 "good"
      = (none, some (.errorf "会话已过期")) := by
  decide

/-- C11, amended: for a token that `ParseToken` accepts and whose session row,
looked up by the unique token, is found, `ValidateToken` succeeds, returning
that row, exactly when the row's expiry is not before the current time
(`now ≤ expires_at`) and the row's user id is the one in the token; so it
succeeds when the expiry equals the current time, and otherwise returns no
session and an error. -/
theorem C11_session_valid_iff (L : AuthLib) (db : Db) (F : AuthFaults) (secretEnv : String)
    (now : Int) (token : String) (claims : Claims) (row : SessionRow)
    (hparse : ParseToken L secretEnv token = (some claims, none))
    (hq : F.sessionQuery = none)
    (hnd : (db.sessions.map (fun r => r.token)).Nodup)
    (hrow : row ∈ db.sessions) (htok : row.token = token) :
    (ValidateToken L db F secretEnv now token = (some row, none) ↔
      (now ≤ row.expires_at ∧ row.user_id = claims.UserID)) ∧
    (row.expires_at = now → row.user_id = claims.UserID →
      ValidateToken L db F secretEnv now token = (some row, none)) ∧
    (¬ (now ≤ row.expires_at ∧ row.user_id = claims.UserID) →
      (ValidateToken L db F secretEnv now token).1 = none ∧
      (ValidateToken L db F secretEnv now token).2 ≠ none) := by
  rw [ValidateToken_found L db F secretEnv now token claims row hparse hq hnd hrow htok]
  by_cases hu : claims.UserID = row.user_id
  · by_cases he : row.expires_at < now
    · simp only [hu, he, ne_eq, not_true_eq_false, if_false, if_true]
      refine ⟨?_, ?_, ?_⟩
      · constructor
        · intro h; simp at h
        · intro h; omega
      · intro h; omega
      · intro _; simp
    · simp only [hu, he, ne_eq, not_true_eq_false, if_false]
      refine ⟨?_, ?_, ?_⟩
      · constructor
        · intro _; exact ⟨by omega, trivial⟩
        · intro _; trivial
      · intro _ _; trivial
      · intro h; exact absurd ⟨by omega, trivial⟩ h
  · have hu' : ¬ row.user_id = claims.UserID := fun h => hu h.symm
    simp only [hu, hu', ne_eq, not_false_eq_true, if_true, and_false]
    refine ⟨?_, ?_, ?_⟩
    · constructor
      · intro h; simp at h
      · intro h; exact absurd h id
    · intro _ h; exact absurd h id
    · intro _; simp

/-- C11, amended, on the token `"good"` at the instant of its expiry. -/
theorem C11_session_valid_iff_witness :
    ValidateToken stubAuth sampleDbSessions AuthFaults.ok "" 1000 "good"
      = (some ⟨1, 1, "good", 1000⟩, none) :=
  (C11_session_valid_iff stubAuth sampleDbSessions AuthFaults.ok "" 1000 "good"
    ⟨1, some 2000⟩ ⟨1, 1, "good", 1000⟩ (by decide) rfl (by decide) (by decide) rfl).2.1
    rfl rfl

/-- C12, as stated, fails: the token `"forged"` has a session row that expired at
999, before the current time 1000, but `ParseToken` rejects it, and
`ValidateToken` fails with `ParseToken`'s error, not with the session-expired
error. -/
theorem C12_rejected_token_not_expired_error :
    (⟨2, 1, "forged", 999⟩ : SessionRow) ∈ sampleDbSessions.sessions ∧
    (ParseToken stubAuth "" "forged").2 = some (.lib "token signature is invalid") ∧
    ValidateToken stubAuth sampleDbSessions AuthFaults.ok "" 1000 "forged"
      = (none, some (.lib "token signature is invalid")) ∧
    (ValidateToken stubAuth sampleDbSessions AuthFaults.ok "" 1000 "forged").2
      ≠ some (.errorf "会话已过期") := by
  decide

/-- C12, amended: when `ParseToken` accepts the token and the session row found
for it has the token's user id and an expiry before the current time,
`ValidateToken` fails with the session-expired error; when the row's user id
differs from the token's, it fails with the mismatch error, expired or not; and
when `ParseToken` rejects the token, it fails with `ParseToken`'s error,
whatever the session rows. -/
theorem C12_expired_after_parse_and_match (L : AuthLib) (db : Db) (F : AuthFaults)
    (secretEnv : String) (now : Int) (token : String) :
    (∀ claims row, ParseToken L secretEnv token = (some claims, none) →
      F.sessionQuery = none → (db.sessions.map (fun r => r.token)).Nodup →
      row ∈ db.sessions → row.token = token → row.expires_at < now →
      (row.user_id = claims.UserID →
        ValidateToken L db F secretEnv now token = (none, some (.errorf "会话已过期"))) ∧
      (row.user_id ≠ claims.UserID →
        ValidateToken L db F secretEnv now token
          = (none, some (.errorf "token 与会话不匹配")))) ∧
    (∀ err, (ParseToken L secretEnv token).2 = some err →
      ValidateToken L db F secretEnv now token = (none, some err)) := by
  refine ⟨?_, fun err h => ValidateToken_rejected L db F secretEnv now token err h⟩
  intro claims row hparse hq hnd hrow htok hexp
  rw [ValidateToken_found L db F secretEnv now token claims row hparse hq hnd hrow htok]
  constructor
  · intro hu
    simp [hu, hexp]
  · intro hu
    have hu' : ¬ claims.UserID = row.user_id := fun h => hu h.symm
    simp [hu']

/-- C12, amended, on the token `"good"` one instant after its expiry and on the
token `"forged"`. -/
theorem C12_expired_after_parse_and_match_witness :
    ValidateToken stubAuth sampleDbSessions AuthFaults.ok "" 1001 "good"
      = (none, some (.errorf "会话已过期")) ∧
    ValidateToken stubAuth sampleDbSessions AuthFaults.ok "" 1001 "forged"
      = (none, some (.lib "token signature is invalid")) :=
  have h := C12_expired_after_parse_and_match stubAuth sampleDbSessions AuthFaults.ok ""
    1001 "good"
  have h' := C12_expired_after_parse_and_match stubAuth sampleDbSessions AuthFaults.ok ""
    1001 "forged"
  ⟨(h.1 ⟨1, some 2000⟩ ⟨1, 1, "good", 1000⟩ (by decide) rfl (by decide) (by decide) rfl
      (by decide)).1 rfl,
    h'.2 (.lib "token signature is invalid") (by decide)⟩

/-- What `GenerateToken` returns: the signature of the claims made of the user id
and the numeric date of the expiry, and the expiry `now + 7 * 24` hours. -/
theorem GenerateToken_eq (L : AuthLib) (secretEnv : String) (now : Int) (uid : Int) :
    (GenerateToken L secretEnv now uid).expireAt = now + 7 * 24 * Hour ∧
    (GenerateToken L secretEnv now uid).token =
      (L.signedString ⟨uid, some (L.newNumericDate (now + 7 * 24 * Hour))⟩
        (getJWTSecret secretEnv)).1 ∧
    ((GenerateToken L secretEnv now uid).err = none ↔
      (L.signedString ⟨uid, some (L.newNumericDate (now + 7 * 24 * Hour))⟩
        (getJWTSecret secretEnv)).2 = none) := by
  have hexp : now + Hour * 24 * tokenExpireDays = now + 7 * 24 * Hour := by
    unfold tokenExpireDays
    ring
  unfold GenerateToken
  simp only [hexp]
  refine ⟨trivial, trivial, ?_⟩
  cases (L.signedString ⟨uid, some (L.newNumericDate (now + 7 * 24 * Hour))⟩
    (getJWTSecret secretEnv)).2 <;> simp

/-- C13: when `Login` returns a nil error for `username` at the time `now`, there
is a user `u` with that name and password hash such that `GenerateToken` for
`u.id` yields, without error, the signature of claims whose user id is `u.id`,
with the expiry `now + 7 * 24` hours; `Login` returns that token and leaves the
table `sessions` with exactly one more row, appended after the rows that were
there, holding `u.id`, the token and that expiry; the other tables are
unchanged. -/
theorem C13_login_creates_session (L : AuthLib) (db : Db) (F : AuthFaults)
    (secretEnv : String) (now : Int) (username password : String)
    (hok : (Login L db F secretEnv now username password).1.2 = none) :
    ∃ u ∈ db.users, u.username = username ∧ u.password_hash = hashPassword L password ∧
      (GenerateToken L secretEnv now u.id).err = none ∧
      (GenerateToken L secretEnv now u.id).expireAt = now + 7 * 24 * Hour ∧
      (GenerateToken L secretEnv now u.id).token =
        (L.signedString ⟨u.id, some (L.newNumericDate (now + 7 * 24 * Hour))⟩
          (getJWTSecret secretEnv)).1 ∧
      (Login L db F secretEnv now username password).1.1
        = (GenerateToken L secretEnv now u.id).token ∧
      (∃ id, (Login L db F secretEnv now username password).2.sessions =
        db.sessions ++ [⟨id, u.id, (Login L db F secretEnv now username password).1.1,
          now + 7 * 24 * Hour⟩]) ∧
      (Login L db F secretEnv now username password).2.users = db.users ∧
      (Login L db F secretEnv now username password).2.ocr_records = db.ocr_records ∧
      (Login L db F secretEnv now username password).2.ocr_rate_limits = db.ocr_rate_limits ∧
      (Login L db F secretEnv now username password).2.config = db.config := by
  unfold Login at hok
  cases hF : F.userQuery with
  | some msg => simp [hF] at hok
  | none =>
    simp only [hF] at hok
    cases hfind : db.users.find? (fun u => decide (u.username = username)) with
    | none => simp [hfind] at hok
    | some u =>
      simp only [hfind] at hok
      by_cases hpw : u.password_hash ≠ hashPassword L password
      · simp [hpw] at hok
      · simp only [hpw, if_false] at hok
        cases hg : (GenerateToken L secretEnv now u.id).err with
        | some err => simp [hg] at hok
        | none =>
          simp only [hg] at hok
          cases hins : F.sessionInsert with
          | some msg => simp [hins] at hok
          | none =>
            simp only [hins] at hok
            by_cases hdup : (db.sessions.any
                (fun r => decide (r.token = (GenerateToken L secretEnv now u.id).token))) = true
            · simp [hdup] at hok
            · have hL : Login L db F secretEnv now username password =
                  (((GenerateToken L secretEnv now u.id).token, none),
                    { db with sessions := db.sessions ++
                      [⟨nextId 0 (db.sessions.map (fun r => r.id)), u.id,
                        (GenerateToken L secretEnv now u.id).token,
                        (GenerateToken L secretEnv now u.id).expireAt⟩] }) := by
                unfold Login
                simp only [hF, hfind, hpw, if_false, hg, hins, hdup]
                simp
              have hmem := List.mem_of_find?_eq_some hfind
              have hname : u.username = username := by
                simpa using List.find?_some hfind
              have hgen := GenerateToken_eq L secretEnv now u.id
              rw [hL]
              exact ⟨u, hmem, hname, not_not.mp hpw, hg, hgen.1, hgen.2.1, rfl,
                ⟨_, by rw [hgen.1]⟩, rfl, rfl, rfl, rfl⟩

/-- C13 on the login of `alice` at the time 500. -/
theorem C13_login_creates_session_witness :
    (Login stubAuth sampleDbSessions AuthFaults.ok "" 500 "alice" "secret").1.2 = none ∧
    ∃ u ∈ sampleDbSessions.users, u.username = "alice" ∧
      (Login stubAuth sampleDbSessions AuthFaults.ok "" 500 "alice" "secret").1.1
        = (GenerateToken stubAuth "" 500 u.id).token ∧
      (GenerateToken stubAuth "" 500 u.id).expireAt = 500 + 7 * 24 * Hour :=
  have hok : (Login stubAuth sampleDbSessions AuthFaults.ok "" 500 "alice" "secret").1.2
      = none := by decide
  ⟨hok, (C13_login_creates_session stubAuth sampleDbSessions AuthFaults.ok "" 500 "alice"
    "secret" hok).elim (fun u hu => ⟨u, hu.1, hu.2.1, hu.2.2.2.2.2.2.1, hu.2.2.2.2.1⟩)⟩

end Softscan
